import Mathlib

/-!
Shallow embedding of the audit-trail canister
(`src/src/canisters/audit_trail/src/lib.rs`) of the NEAR custody repository.

Modelling conventions:
* Rust `u64`/`u32` values are `Nat`; wrapping arithmetic is written with an
  explicit `% u64Mod` exactly where the Rust release build wraps.
* `Principal` is modelled by its textual form (the code only ever compares
  principals and feeds `actor.to_string()` into the hash).
* SHA-256 is abstracted: every operation takes a digest function
  `H : List Nat → List Nat` applied to the exact byte sequence the Rust code
  feeds the hasher (`hashPreimage`).  Collision resistance enters the
  development only as an `Function.Injective H` hypothesis where a theorem
  needs it; concrete evaluations instantiate `H` with the identity.
* The canister's thread-local cells (`AUDIT_ENTRIES`, `COMPLIANCE_REPORTS`,
  `LAST_ENTRY_HASH`, `AUDIT_SETTINGS`, `AUDITORS`, `ENTRY_COUNTER`) become the
  fields of `AuditState`, passed and returned explicitly.  `AUDIT_ENTRIES` is
  a `BTreeMap` keyed by the entry's fresh UUID; it is modelled as the list of
  its values in insertion order (key order only influences the tie-breaking
  of the timestamp sorts, and the theorems that depend on order carry
  distinct-timestamp hypotheses).
* `Uuid::new_v4()` and `ic_cdk::api::time()` are external inputs; each
  operation takes the drawn id(s) and clock reading(s) as explicit arguments.
* Rust's stable `sort_by` is modelled by the stable insertion sort
  `sortByStable`.
-/

namespace AuditTrail

/-- u64 modulus: Rust release builds wrap `u64` arithmetic at this modulus. -/
def u64Mod : Nat := 2 ^ 64

/-- `candid::Principal`, modelled by its textual representation
(the code uses only equality tests and `to_string`). -/
structure Principal where
  text : String
deriving DecidableEq

/-- `EventType` enum from the source. -/
inductive EventType
  | AccountCreation
  | AccountModification
  | AccountClosure
  | TransactionInitiated
  | TransactionApproved
  | TransactionExecuted
  | TransactionRejected
  | ComplianceCheck
  | KycUpdate
  | RiskAssessment
  | EmergencyAction
  | SystemConfiguration
  | UserAuthentication
  | AccessGranted
  | AccessDenied
  | DataExport
  | DataModification
  | PolicyUpdate
  | AuditAccess
deriving DecidableEq, Fintype

/-- `ResourceType` enum from the source. -/
inductive ResourceType
  | CustodyAccount
  | MultisigWallet
  | Transaction
  | KycProfile
  | ComplianceReport
  | User
  | System
  | Document
  | Policy
  | AuditLog
deriving DecidableEq, Fintype

/-- `AuditMetadata` struct; `additional_context` is a `BTreeMap<String,String>`,
modelled as an association list. -/
structure AuditMetadata where
  ip_address : Option String
  user_agent : Option String
  session_id : Option String
  request_id : Option String
  canister_id : Option String
  method_name : Option String
  before_state : Option String
  after_state : Option String
  error_code : Option String
  additional_context : List (String × String)
deriving DecidableEq

/-- `impl Default for AuditMetadata`. -/
def AuditMetadata.default : AuditMetadata :=
  { ip_address := none, user_agent := none, session_id := none,
    request_id := none, canister_id := none, method_name := none,
    before_state := none, after_state := none, error_code := none,
    additional_context := [] }

/-- `AuditEntry` struct.  The digest fields `hash` / `previous_hash` hold the
abstract digest values (`H` applied to the byte preimage). -/
structure AuditEntry where
  id : String
  timestamp : Nat
  event_type : EventType
  actor : Principal
  resource_type : ResourceType
  resource_id : String
  action : String
  details : String
  metadata : AuditMetadata
  hash : List Nat
  previous_hash : Option (List Nat)
  compliance_relevant : Bool
  retention_until : Option Nat
deriving DecidableEq

/-- `AuditQuery` struct. -/
structure AuditQuery where
  event_types : Option (List EventType)
  resource_types : Option (List ResourceType)
  actors : Option (List Principal)
  resource_ids : Option (List String)
  start_time : Option Nat
  end_time : Option Nat
  compliance_relevant_only : Bool
  limit : Option Nat
  offset : Option Nat
deriving DecidableEq

/-- `ReportType` enum. -/
inductive ReportType
  | Daily
  | Weekly
  | Monthly
  | Quarterly
  | Annual
  | OnDemand
  | Regulatory
  | Internal
deriving DecidableEq

/-- `ComplianceReport` struct. -/
structure ComplianceReport where
  id : String
  report_type : ReportType
  period_start : Nat
  period_end : Nat
  generated_at : Nat
  generated_by : Principal
  entries_count : Nat
  summary : String
  hash : List Nat
  digital_signature : Option String
deriving DecidableEq

/-- `AuditSettings` struct. -/
structure AuditSettings where
  retention_days : Nat
  auto_archive_enabled : Bool
  compliance_reporting_enabled : Bool
  real_time_alerts_enabled : Bool
  hash_verification_enabled : Bool
  digital_signatures_enabled : Bool
  audit_access_logging : Bool
deriving DecidableEq

/-- The canister's thread-local state cells, made explicit. -/
structure AuditState where
  audit_entries : List AuditEntry
  compliance_reports : List ComplianceReport
  last_entry_hash : Option (List Nat)
  audit_settings : AuditSettings
  auditors : List (Principal × String)
  entry_counter : Nat
deriving DecidableEq

/-- A ledger with no entries yet (settings and auditor registry arbitrary):
the state from which append sequences are replayed. -/
def emptyLedger (settings : AuditSettings) (auditors : List (Principal × String)) : AuditState :=
  { audit_entries := [], compliance_reports := [], last_entry_hash := none,
    audit_settings := settings, auditors := auditors, entry_counter := 0 }

/-! ## Byte encoding of the hash preimage -/

/-- `str.as_bytes()`: byte list of a string (one code point per cell; injective,
which is all the development uses). -/
def strBytes (s : String) : List Nat := s.data.map Char.toNat

/-- `u64::to_be_bytes`: the eight big-endian bytes of a `u64`. -/
def u64BeBytes (n : Nat) : List Nat :=
  [n / 2 ^ 56 % 256, n / 2 ^ 48 % 256, n / 2 ^ 40 % 256, n / 2 ^ 32 % 256,
   n / 2 ^ 24 % 256, n / 2 ^ 16 % 256, n / 2 ^ 8 % 256, n % 256]

/-- `format!("{:?}", event_type)`: the Rust `Debug` string (constructor name). -/
def EventType.debugStr : EventType → String
  | .AccountCreation => "AccountCreation"
  | .AccountModification => "AccountModification"
  | .AccountClosure => "AccountClosure"
  | .TransactionInitiated => "TransactionInitiated"
  | .TransactionApproved => "TransactionApproved"
  | .TransactionExecuted => "TransactionExecuted"
  | .TransactionRejected => "TransactionRejected"
  | .ComplianceCheck => "ComplianceCheck"
  | .KycUpdate => "KycUpdate"
  | .RiskAssessment => "RiskAssessment"
  | .EmergencyAction => "EmergencyAction"
  | .SystemConfiguration => "SystemConfiguration"
  | .UserAuthentication => "UserAuthentication"
  | .AccessGranted => "AccessGranted"
  | .AccessDenied => "AccessDenied"
  | .DataExport => "DataExport"
  | .DataModification => "DataModification"
  | .PolicyUpdate => "PolicyUpdate"
  | .AuditAccess => "AuditAccess"

/-- `format!("{:?}", resource_type)`: the Rust `Debug` string. -/
def ResourceType.debugStr : ResourceType → String
  | .CustodyAccount => "CustodyAccount"
  | .MultisigWallet => "MultisigWallet"
  | .Transaction => "Transaction"
  | .KycProfile => "KycProfile"
  | .ComplianceReport => "ComplianceReport"
  | .User => "User"
  | .System => "System"
  | .Document => "Document"
  | .Policy => "Policy"
  | .AuditLog => "AuditLog"

/-- The exact byte sequence `calculate_entry_hash` feeds the SHA-256 hasher:
id, timestamp (big-endian), Debug of event type, principal text, Debug of
resource type, resource id, action, details, then the previous hash if present
(the three fields `metadata`, `compliance_relevant`, `retention_until` are
NOT hashed by the source). -/
def hashPreimage (entry_id : String) (timestamp : Nat) (event_type : EventType)
    (actor : Principal) (resource_type : ResourceType)
    (resource_id action details : String) (previous_hash : Option (List Nat)) :
    List Nat :=
  strBytes entry_id ++ u64BeBytes timestamp ++ strBytes event_type.debugStr ++
    strBytes actor.text ++ strBytes resource_type.debugStr ++
    strBytes resource_id ++ strBytes action ++ strBytes details ++
    (match previous_hash with
     | some prev_hash => prev_hash
     | none => [])

/-- `calculate_entry_hash`, with SHA-256 abstracted as `H`. -/
def calculate_entry_hash (H : List Nat → List Nat) (entry_id : String)
    (timestamp : Nat) (event_type : EventType) (actor : Principal)
    (resource_type : ResourceType) (resource_id action details : String)
    (previous_hash : Option (List Nat)) : List Nat :=
  H (hashPreimage entry_id timestamp event_type actor resource_type
      resource_id action details previous_hash)

/-- Recompute an entry's hash from its own stored fields against a given
running previous hash (the expression both `create_audit_entry` and
`verify_audit_chain` use). -/
def entryCalcHash (H : List Nat → List Nat) (e : AuditEntry)
    (prev : Option (List Nat)) : List Nat :=
  calculate_entry_hash H e.id e.timestamp e.event_type e.actor e.resource_type
    e.resource_id e.action e.details prev

/-! ## Core audit functions -/

/-- `create_audit_entry`: builds the entry from the current chain tail,
advances the tail and the counter.  The fresh UUID `entry_id` and the clock
reading `now` are explicit inputs.  Following the source, the built entry is
returned and NOT yet inserted into the entries map (each caller inserts). -/
def create_audit_entry (H : List Nat → List Nat) (st : AuditState)
    (entry_id : String) (now : Nat) (event_type : EventType) (actor : Principal)
    (resource_type : ResourceType) (resource_id action details : String)
    (metadata : AuditMetadata) (compliance_relevant : Bool) :
    AuditEntry × AuditState :=
  let previous_hash := st.last_entry_hash
  let entry_hash := calculate_entry_hash H entry_id now event_type actor
    resource_type resource_id action details previous_hash
  let retention_until :=
    if compliance_relevant then
      some ((now + st.audit_settings.retention_days * 24 * 60 * 60 * 1000000000 % u64Mod) % u64Mod)
    else none
  ({ id := entry_id, timestamp := now, event_type := event_type, actor := actor,
     resource_type := resource_type, resource_id := resource_id,
     action := action, details := details, metadata := metadata,
     hash := entry_hash, previous_hash := previous_hash,
     compliance_relevant := compliance_relevant,
     retention_until := retention_until },
   { st with last_entry_hash := some entry_hash,
             entry_counter := (st.entry_counter + 1) % u64Mod })

/-- `AUDIT_ENTRIES.insert(entry.id, entry)`: `BTreeMap` insert — replaces the
value when the key is already present, otherwise adds the entry. -/
def insertEntry (st : AuditState) (e : AuditEntry) : AuditState :=
  if st.audit_entries.any (fun x => decide (x.id = e.id)) then
    { st with audit_entries :=
        st.audit_entries.map (fun x => if x.id = e.id then e else x) }
  else
    { st with audit_entries := st.audit_entries ++ [e] }

/-- `is_authorized_auditor`. -/
def is_authorized_auditor (st : AuditState) (principal : Principal) : Bool :=
  st.auditors.any (fun a => decide (a.1 = principal))

/-- `log_audit_access`: records the fact of a read by calling
`create_audit_entry` directly (never the public `log_audit_event`), so it can
never recurse. -/
def log_audit_access (H : List Nat → List Nat) (st : AuditState)
    (actor : Principal) (method : String) (resource_id : String)
    (entry_id : String) (now : Nat) : AuditState :=
  let r := create_audit_entry H st entry_id now EventType.AuditAccess actor
    ResourceType.AuditLog resource_id method
    ("Audit access via method: " ++ method) AuditMetadata.default true
  insertEntry r.2 r.1

/-- `log_audit_event`: the public logging entry point.  Open to every caller;
always returns `Ok` with the new entry's id.  When `audit_access_logging` is
on it additionally records an audit-access entry (second fresh id / time). -/
def log_audit_event (H : List Nat → List Nat) (st : AuditState)
    (caller : Principal) (event_type : EventType) (resource_type : ResourceType)
    (resource_id action details : String) (metadata : Option AuditMetadata)
    (compliance_relevant : Bool) (entry_id accessId : String)
    (now accessNow : Nat) : Except String String × AuditState :=
  let audit_metadata := metadata.getD AuditMetadata.default
  let r := create_audit_entry H st entry_id now event_type caller resource_type
    resource_id action details audit_metadata compliance_relevant
  let st1 := insertEntry r.2 r.1
  let st2 :=
    if st1.audit_settings.audit_access_logging then
      log_audit_access H st1 caller "log_audit_event" r.1.id accessId accessNow
    else st1
  (Except.ok r.1.id, st2)

/-! ## Query functions -/

/-- `matches_query`: conjunction of the seven filters; each early
`return false` of the source is one `&&` clause here. -/
def matches_query (entry : AuditEntry) (query : AuditQuery) : Bool :=
  (match query.event_types with
   | some event_types => decide (entry.event_type ∈ event_types)
   | none => true) &&
  (match query.resource_types with
   | some resource_types => decide (entry.resource_type ∈ resource_types)
   | none => true) &&
  (match query.actors with
   | some actors => decide (entry.actor ∈ actors)
   | none => true) &&
  (match query.resource_ids with
   | some resource_ids => decide (entry.resource_id ∈ resource_ids)
   | none => true) &&
  (match query.start_time with
   | some start_time => decide (start_time ≤ entry.timestamp)
   | none => true) &&
  (match query.end_time with
   | some end_time => decide (entry.timestamp ≤ end_time)
   | none => true) &&
  !(query.compliance_relevant_only && !entry.compliance_relevant)

/-- Stable insert used by `sortByStable`. -/
def insertSorted {α : Type} (le : α → α → Bool) (a : α) : List α → List α
  | [] => [a]
  | b :: l => if le a b then a :: b :: l else b :: insertSorted le a l

/-- Stable insertion sort: model of Rust's stable `sort_by`. -/
def sortByStable {α : Type} (le : α → α → Bool) : List α → List α
  | [] => []
  | a :: l => insertSorted le a (sortByStable le l)

/-- The filtered entry list of `query_audit_entries`, sorted newest first
(timestamp descending), before offset/limit are applied. -/
def sorted_matches (st : AuditState) (query : AuditQuery) : List AuditEntry :=
  sortByStable (fun a b => decide (b.timestamp ≤ a.timestamp))
    (st.audit_entries.filter (fun e => matches_query e query))

/-- `results.truncate(limit)` when a limit was supplied. -/
def applyLimit (limit : Option Nat) (l : List AuditEntry) : List AuditEntry :=
  match limit with
  | some k => l.take k
  | none => l

/-- `query_audit_entries`: auditor-gated; logs the access, filters, sorts
descending by timestamp, then applies offset (early empty return when the
offset reaches the result length) and limit. -/
def query_audit_entries (H : List Nat → List Nat) (st : AuditState)
    (caller : Principal) (query : AuditQuery) (accessId : String) (now : Nat) :
    List AuditEntry × AuditState :=
  if !(is_authorized_auditor st caller) then ([], st)
  else
    let st1 := log_audit_access H st caller "query_audit_entries" "multiple" accessId now
    let results := sorted_matches st1 query
    match query.offset with
    | some off =>
      if results.length ≤ off then ([], st1)
      else (applyLimit query.limit (results.drop off), st1)
    | none => (applyLimit query.limit results, st1)

/-- `get_audit_entry`: auditor-gated keyed lookup. -/
def get_audit_entry (H : List Nat → List Nat) (st : AuditState)
    (caller : Principal) (entry_id : String) (accessId : String) (now : Nat) :
    Option AuditEntry × AuditState :=
  if !(is_authorized_auditor st caller) then (none, st)
  else
    let st1 := log_audit_access H st caller "get_audit_entry" entry_id accessId now
    (st1.audit_entries.find? (fun e => decide (e.id = entry_id)), st1)

/-- The verification loop of `verify_audit_chain` over the time-sorted entry
list, carrying the running previous hash. -/
def verifyChainList (H : List Nat → List Nat) :
    List AuditEntry → Option (List Nat) → Except String String
  | [], _ => Except.ok "Audit chain verification successful"
  | entry :: rest, previous_hash =>
    let calculated_hash := entryCalcHash H entry previous_hash
    if calculated_hash ≠ entry.hash then
      Except.error ("Hash mismatch in entry: " ++ entry.id)
    else if entry.previous_hash ≠ previous_hash then
      Except.error ("Chain integrity broken at entry: " ++ entry.id)
    else verifyChainList H rest (some entry.hash)

/-- `verify_audit_chain`: auditor-gated (unauthorized callers get an explicit
`Err`), logs the access, then replays all entries sorted by timestamp
ascending. -/
def verify_audit_chain (H : List Nat → List Nat) (st : AuditState)
    (caller : Principal) (accessId : String) (now : Nat) :
    Except String String × AuditState :=
  if !(is_authorized_auditor st caller) then
    (Except.error "Unauthorized access", st)
  else
    let st1 := log_audit_access H st caller "verify_audit_chain"
      "chain_verification" accessId now
    let entries_vec := sortByStable (fun a b => decide (a.timestamp ≤ b.timestamp))
      st1.audit_entries
    (verifyChainList H entries_vec none, st1)

/-! ## Compliance report reads and statistics -/

/-- `get_compliance_report`: auditor-gated keyed lookup. -/
def get_compliance_report (H : List Nat → List Nat) (st : AuditState)
    (caller : Principal) (report_id : String) (accessId : String) (now : Nat) :
    Option ComplianceReport × AuditState :=
  if !(is_authorized_auditor st caller) then (none, st)
  else
    let st1 := log_audit_access H st caller "get_compliance_report" report_id accessId now
    (st1.compliance_reports.find? (fun r => decide (r.id = report_id)), st1)

/-- `list_compliance_reports`: auditor-gated listing. -/
def list_compliance_reports (H : List Nat → List Nat) (st : AuditState)
    (caller : Principal) (accessId : String) (now : Nat) :
    List ComplianceReport × AuditState :=
  if !(is_authorized_auditor st caller) then ([], st)
  else
    let st1 := log_audit_access H st caller "list_compliance_reports" "all_reports" accessId now
    (st1.compliance_reports, st1)

/-- All `EventType` constructors listed by their Debug name in ascending
string order (the iteration order of the `BTreeMap` of per-type counts). -/
def allEventTypesByDebugName : List EventType :=
  [.AccessDenied, .AccessGranted, .AccountClosure, .AccountCreation,
   .AccountModification, .AuditAccess, .ComplianceCheck, .DataExport,
   .DataModification, .EmergencyAction, .KycUpdate, .PolicyUpdate,
   .RiskAssessment, .SystemConfiguration, .TransactionApproved,
   .TransactionExecuted, .TransactionInitiated, .TransactionRejected,
   .UserAuthentication]

/-- The per-event-type counts of `get_audit_statistics`: one pair per event
type that occurs, keyed by its Debug name, in key order. -/
def eventTypeCounts (entries : List AuditEntry) : List (String × Nat) :=
  (allEventTypesByDebugName.map (fun et =>
      (et.debugStr, (entries.filter (fun e => decide (e.event_type = et))).length))).filter
    (fun p => decide (0 < p.2))

/-- `get_audit_statistics`: auditor-gated; returns the stats `BTreeMap` as its
key-ordered association list ("compliance_entries" < "compliance_reports" <
"event_type_…" < "total_entries"). -/
def get_audit_statistics (H : List Nat → List Nat) (st : AuditState)
    (caller : Principal) (accessId : String) (now : Nat) :
    List (String × Nat) × AuditState :=
  if !(is_authorized_auditor st caller) then ([], st)
  else
    let st1 := log_audit_access H st caller "get_audit_statistics" "statistics" accessId now
    let stats :=
      [("compliance_entries",
        (st1.audit_entries.filter (fun e => e.compliance_relevant)).length),
       ("compliance_reports", st1.compliance_reports.length)] ++
      (eventTypeCounts st1.audit_entries).map
        (fun p => ("event_type_" ++ p.1, p.2)) ++
      [("total_entries", st1.audit_entries.length)]
    (stats, st1)

/-! ## Append sequences and chain predicates -/

/-- One logging request: the semantic fields passed to `create_audit_entry`
plus the fresh UUID and clock reading drawn for it.  Every write path of the
canister (`init`, the upgrade hooks, `log_audit_event`, `log_audit_access`)
is one such create-then-insert step. -/
structure AppendReq where
  entry_id : String
  now : Nat
  event_type : EventType
  actor : Principal
  resource_type : ResourceType
  resource_id : String
  action : String
  details : String
  metadata : AuditMetadata
  compliance_relevant : Bool
deriving DecidableEq

/-- The entry a request builds from a given state. -/
def newEntry (H : List Nat → List Nat) (st : AuditState) (r : AppendReq) : AuditEntry :=
  (create_audit_entry H st r.entry_id r.now r.event_type r.actor
    r.resource_type r.resource_id r.action r.details r.metadata
    r.compliance_relevant).1

/-- Perform one create-then-insert step. -/
def appendOne (H : List Nat → List Nat) (st : AuditState) (r : AppendReq) : AuditState :=
  let p := create_audit_entry H st r.entry_id r.now r.event_type r.actor
    r.resource_type r.resource_id r.action r.details r.metadata
    r.compliance_relevant
  insertEntry p.2 p.1

/-- Replay a whole sequence of logging requests. -/
def appendAll (H : List Nat → List Nat) (st : AuditState) (rs : List AppendReq) : AuditState :=
  rs.foldl (appendOne H) st

/-- The hash-chain invariant of an entry list against a running previous
hash: each entry stores the running hash as `previous_hash` and its own hash
is the digest of its fields with that running hash. -/
def chainOk (H : List Nat → List Nat) : Option (List Nat) → List AuditEntry → Prop
  | _, [] => True
  | prev, e :: rest =>
    e.previous_hash = prev ∧ e.hash = entryCalcHash H e prev ∧
      chainOk H (some e.hash) rest

/-- The chain tail after an entry list (hash of its last entry, or the
incoming tail when the list is empty). -/
def tailHash (prev : Option (List Nat)) : List AuditEntry → Option (List Nat)
  | [] => prev
  | e :: rest => tailHash (some e.hash) rest

/-- Ledger invariant: the stored entries form a hash chain from the root and
`LAST_ENTRY_HASH` is its tail. -/
def ledgerInvariant (H : List Nat → List Nat) (st : AuditState) : Prop :=
  chainOk H none st.audit_entries ∧
    st.last_entry_hash = tailHash none st.audit_entries

/-! ## After-the-fact mutations of a stored entry -/

/-- A mutation of a single field of a stored `AuditEntry`. -/
inductive FieldMutation
  | mutId (v : String)
  | mutTimestamp (v : Nat)
  | mutEventType (v : EventType)
  | mutActor (v : Principal)
  | mutResourceType (v : ResourceType)
  | mutResourceId (v : String)
  | mutAction (v : String)
  | mutDetails (v : String)
  | mutMetadata (v : AuditMetadata)
  | mutHash (v : List Nat)
  | mutPreviousHash (v : Option (List Nat))
  | mutComplianceRelevant (v : Bool)
  | mutRetentionUntil (v : Option Nat)
deriving DecidableEq

/-- Apply a single-field mutation to an entry. -/
def applyMutation (e : AuditEntry) : FieldMutation → AuditEntry
  | .mutId v => { e with id := v }
  | .mutTimestamp v => { e with timestamp := v }
  | .mutEventType v => { e with event_type := v }
  | .mutActor v => { e with actor := v }
  | .mutResourceType v => { e with resource_type := v }
  | .mutResourceId v => { e with resource_id := v }
  | .mutAction v => { e with action := v }
  | .mutDetails v => { e with details := v }
  | .mutMetadata v => { e with metadata := v }
  | .mutHash v => { e with hash := v }
  | .mutPreviousHash v => { e with previous_hash := v }
  | .mutComplianceRelevant v => { e with compliance_relevant := v }
  | .mutRetentionUntil v => { e with retention_until := v }

/-- Whether the mutated field takes part in the hash/chain checks
(`metadata`, `compliance_relevant` and `retention_until` do not: the source
never hashes them). -/
def hashCoveredMutation : FieldMutation → Bool
  | .mutMetadata _ => false
  | .mutComplianceRelevant _ => false
  | .mutRetentionUntil _ => false
  | _ => true

/-- The mutation actually changes the entry's stored value. -/
def mutChanges (e : AuditEntry) : FieldMutation → Prop
  | .mutId v => v ≠ e.id
  | .mutTimestamp v => v ≠ e.timestamp
  | .mutEventType v => v ≠ e.event_type
  | .mutActor v => v ≠ e.actor
  | .mutResourceType v => v ≠ e.resource_type
  | .mutResourceId v => v ≠ e.resource_id
  | .mutAction v => v ≠ e.action
  | .mutDetails v => v ≠ e.details
  | .mutMetadata v => v ≠ e.metadata
  | .mutHash v => v ≠ e.hash
  | .mutPreviousHash v => v ≠ e.previous_hash
  | .mutComplianceRelevant v => v ≠ e.compliance_relevant
  | .mutRetentionUntil v => v ≠ e.retention_until

/-- A mutated timestamp must still fit in a `u64` (the only mutation whose
new value feeds a width-dependent encoder). -/
def mutWithinU64 : FieldMutation → Prop
  | .mutTimestamp v => v < u64Mod
  | _ => True

/-- The failure message `verify_audit_chain` produces for a detected mutation
of the given (already mutated) entry: a chain-integrity message for a
`previous_hash` mutation, a hash-mismatch message for every other covered
field. -/
def mutationErrorMsg (e : AuditEntry) : FieldMutation → String
  | .mutPreviousHash _ => "Chain integrity broken at entry: " ++ e.id
  | _ => "Hash mismatch in entry: " ++ e.id

/-- Replace the element at index `i` by `f` applied to it. -/
def modifyIdx {α : Type} (f : α → α) : Nat → List α → List α
  | _, [] => []
  | 0, a :: l => f a :: l
  | n + 1, a :: l => a :: modifyIdx f n l

/-- Mutate one field of the stored entry at index `i` of the entries map,
leaving every other state cell (including `LAST_ENTRY_HASH`) unchanged. -/
def tamperAt (st : AuditState) (i : Nat) (m : FieldMutation) : AuditState :=
  { st with audit_entries := modifyIdx (fun e => applyMutation e m) i st.audit_entries }

/-- The logging request `log_audit_access` performs: an `AuditAccess` entry on
the `AuditLog` resource, compliance-relevant, with default metadata. -/
def accessReq (actor : Principal) (method resource_id entry_id : String)
    (now : Nat) : AppendReq :=
  { entry_id := entry_id, now := now, event_type := EventType.AuditAccess,
    actor := actor, resource_type := ResourceType.AuditLog,
    resource_id := resource_id, action := method,
    details := "Audit access via method: " ++ method,
    metadata := AuditMetadata.default, compliance_relevant := true }

/-- The identity digest: the injective instantiation of `H` used for concrete
evaluations. -/
def idDigest : List Nat → List Nat := fun l => l

/-- Default settings of the canister (`AUDIT_SETTINGS` initializer). -/
def defaultSettings : AuditSettings :=
  { retention_days := 2555, auto_archive_enabled := true,
    compliance_reporting_enabled := true, real_time_alerts_enabled := true,
    hash_verification_enabled := true, digital_signatures_enabled := false,
    audit_access_logging := true }

/-- A sample auditor principal for concrete evaluations. -/
def auditorP : Principal := ⟨"auditor-1"⟩

/-- A ledger with one registered auditor and no entries. -/
def oneAuditorLedger : AuditState := emptyLedger defaultSettings [(auditorP, "Admin")]

/-- Three requests of the specification scenario: A (t=100, compliance), then
B (t=200, not compliance), then C (t=150, compliance). -/
def scenarioReqs : List AppendReq :=
  [{ entry_id := "A", now := 100, event_type := EventType.TransactionExecuted,
     actor := auditorP, resource_type := ResourceType.Transaction,
     resource_id := "rA", action := "a", details := "dA",
     metadata := AuditMetadata.default, compliance_relevant := true },
   { entry_id := "B", now := 200, event_type := EventType.ComplianceCheck,
     actor := auditorP, resource_type := ResourceType.System,
     resource_id := "rB", action := "b", details := "dB",
     metadata := AuditMetadata.default, compliance_relevant := false },
   { entry_id := "C", now := 150, event_type := EventType.KycUpdate,
     actor := auditorP, resource_type := ResourceType.KycProfile,
     resource_id := "rC", action := "c", details := "dC",
     metadata := AuditMetadata.default, compliance_relevant := true }]

/-- The scenario ledger: A, B, C appended in that call order. -/
def scenarioState : AuditState := appendAll idDigest oneAuditorLedger scenarioReqs

/-- The scenario query: time window [120, 300], no other criteria. -/
def scenarioQuery : AuditQuery :=
  { event_types := none, resource_types := none, actors := none,
    resource_ids := none, start_time := some 120, end_time := some 300,
    compliance_relevant_only := false, limit := none, offset := none }

/-- Two plain requests used by concrete chain evaluations. -/
def twoReqs : List AppendReq :=
  [{ entry_id := "e1", now := 100, event_type := EventType.TransactionExecuted,
     actor := auditorP, resource_type := ResourceType.Transaction,
     resource_id := "r1", action := "act1", details := "det1",
     metadata := AuditMetadata.default, compliance_relevant := true },
   { entry_id := "e2", now := 200, event_type := EventType.ComplianceCheck,
     actor := auditorP, resource_type := ResourceType.System,
     resource_id := "r2", action := "act2", details := "det2",
     metadata := AuditMetadata.default, compliance_relevant := false }]

/-- The two-entry concrete ledger. -/
def twoEntryState : AuditState := appendAll idDigest oneAuditorLedger twoReqs

/-- Decidable equality for `Except`, used to evaluate verification results on
concrete inputs. -/
instance {e a : Type} [DecidableEq e] [DecidableEq a] : DecidableEq (Except e a) := fun x y =>
  match x, y with
  | .ok u, .ok v =>
    if h : u = v then isTrue (by rw [h]) else isFalse (fun he => by cases he; exact h rfl)
  | .error u, .error v =>
    if h : u = v then isTrue (by rw [h]) else isFalse (fun he => by cases he; exact h rfl)
  | .ok _, .error _ => isFalse (fun he => by cases he)
  | .error _, .ok _ => isFalse (fun he => by cases he)

/-! ## Injectivity of the byte encoders -/

theorem charToNat_inj {a b : Char} (h : a.toNat = b.toNat) : a = b := by
  have h4 : a.val.toBitVec = b.val.toBitVec := BitVec.eq_of_toNat_eq h
  have h3 : a.val = b.val := congrArg UInt32.mk h4
  exact Char.eq_of_val_eq h3

theorem strBytes_inj {s t : String} (h : strBytes s = strBytes t) : s = t := by
  have hd : s.data = t.data := by
    apply List.map_injective_iff.mpr (fun a b hab => charToNat_inj hab)
    exact h
  cases s
  cases t
  simp_all

theorem u64BeBytes_inj {n m : Nat} (hn : n < u64Mod) (hm : m < u64Mod)
    (h : u64BeBytes n = u64BeBytes m) : n = m := by
  have hu : u64Mod = 2 ^ 64 := rfl
  rw [hu] at hn hm
  simp only [u64BeBytes, List.cons.injEq, and_true] at h
  obtain ⟨a1, a2, a3, a4, a5, a6, a7, a8⟩ := h
  omega

theorem eventType_debugStr_inj :
    ∀ a b : EventType, a.debugStr = b.debugStr → a = b := by decide

theorem resourceType_debugStr_inj :
    ∀ a b : ResourceType, a.debugStr = b.debugStr → a = b := by decide

theorem principal_text_inj {a b : Principal} (h : a.text = b.text) : a = b := by
  cases a
  cases b
  simp_all

/-! Per-field disagreement of the hash preimage: changing one field of the
hashed tuple (all others fixed) changes the byte sequence fed to the digest. -/

theorem hashPreimage_ne_id {i1 i2 : String} {ts : Nat} {et : EventType}
    {a : Principal} {rt : ResourceType} {rid ac d : String}
    {ph : Option (List Nat)} (hne : i1 ≠ i2) :
    hashPreimage i1 ts et a rt rid ac d ph ≠ hashPreimage i2 ts et a rt rid ac d ph := by
  intro h
  simp only [hashPreimage, List.append_assoc] at h
  exact hne (strBytes_inj (List.append_cancel_right h))

theorem hashPreimage_ne_timestamp {i : String} {t1 t2 : Nat} {et : EventType}
    {a : Principal} {rt : ResourceType} {rid ac d : String}
    {ph : Option (List Nat)} (h1 : t1 < u64Mod) (h2 : t2 < u64Mod) (hne : t1 ≠ t2) :
    hashPreimage i t1 et a rt rid ac d ph ≠ hashPreimage i t2 et a rt rid ac d ph := by
  intro h
  simp only [hashPreimage, List.append_assoc] at h
  have h3 := List.append_cancel_left h
  exact hne (u64BeBytes_inj h1 h2 (List.append_cancel_right h3))

theorem hashPreimage_ne_eventType {i : String} {ts : Nat} {e1 e2 : EventType}
    {a : Principal} {rt : ResourceType} {rid ac d : String}
    {ph : Option (List Nat)} (hne : e1 ≠ e2) :
    hashPreimage i ts e1 a rt rid ac d ph ≠ hashPreimage i ts e2 a rt rid ac d ph := by
  intro h
  simp only [hashPreimage, List.append_assoc] at h
  have h3 := List.append_cancel_left (List.append_cancel_left h)
  exact hne (eventType_debugStr_inj e1 e2 (strBytes_inj (List.append_cancel_right h3)))

theorem hashPreimage_ne_actor {i : String} {ts : Nat} {et : EventType}
    {a1 a2 : Principal} {rt : ResourceType} {rid ac d : String}
    {ph : Option (List Nat)} (hne : a1 ≠ a2) :
    hashPreimage i ts et a1 rt rid ac d ph ≠ hashPreimage i ts et a2 rt rid ac d ph := by
  intro h
  simp only [hashPreimage, List.append_assoc] at h
  have h3 := List.append_cancel_left (List.append_cancel_left (List.append_cancel_left h))
  exact hne (principal_text_inj (strBytes_inj (List.append_cancel_right h3)))

theorem hashPreimage_ne_resourceType {i : String} {ts : Nat} {et : EventType}
    {a : Principal} {r1 r2 : ResourceType} {rid ac d : String}
    {ph : Option (List Nat)} (hne : r1 ≠ r2) :
    hashPreimage i ts et a r1 rid ac d ph ≠ hashPreimage i ts et a r2 rid ac d ph := by
  intro h
  simp only [hashPreimage, List.append_assoc] at h
  have h3 := List.append_cancel_left (List.append_cancel_left
    (List.append_cancel_left (List.append_cancel_left h)))
  exact hne (resourceType_debugStr_inj r1 r2 (strBytes_inj (List.append_cancel_right h3)))

theorem hashPreimage_ne_resourceId {i : String} {ts : Nat} {et : EventType}
    {a : Principal} {rt : ResourceType} {r1 r2 ac d : String}
    {ph : Option (List Nat)} (hne : r1 ≠ r2) :
    hashPreimage i ts et a rt r1 ac d ph ≠ hashPreimage i ts et a rt r2 ac d ph := by
  intro h
  simp only [hashPreimage, List.append_assoc] at h
  have h3 := List.append_cancel_left (List.append_cancel_left (List.append_cancel_left
    (List.append_cancel_left (List.append_cancel_left h))))
  exact hne (strBytes_inj (List.append_cancel_right h3))

theorem hashPreimage_ne_action {i : String} {ts : Nat} {et : EventType}
    {a : Principal} {rt : ResourceType} {rid a1 a2 d : String}
    {ph : Option (List Nat)} (hne : a1 ≠ a2) :
    hashPreimage i ts et a rt rid a1 d ph ≠ hashPreimage i ts et a rt rid a2 d ph := by
  intro h
  simp only [hashPreimage, List.append_assoc] at h
  have h3 := List.append_cancel_left (List.append_cancel_left (List.append_cancel_left
    (List.append_cancel_left (List.append_cancel_left (List.append_cancel_left h)))))
  exact hne (strBytes_inj (List.append_cancel_right h3))

theorem hashPreimage_ne_details {i : String} {ts : Nat} {et : EventType}
    {a : Principal} {rt : ResourceType} {rid ac d1 d2 : String}
    {ph : Option (List Nat)} (hne : d1 ≠ d2) :
    hashPreimage i ts et a rt rid ac d1 ph ≠ hashPreimage i ts et a rt rid ac d2 ph := by
  intro h
  simp only [hashPreimage, List.append_assoc] at h
  have h3 := List.append_cancel_left (List.append_cancel_left (List.append_cancel_left
    (List.append_cancel_left (List.append_cancel_left (List.append_cancel_left
      (List.append_cancel_left h))))))
  exact hne (strBytes_inj (List.append_cancel_right h3))

/-! ## Stable sort lemmas -/

theorem insertSorted_perm {α : Type} (le : α → α → Bool) (a : α) (l : List α) :
    (insertSorted le a l).Perm (a :: l) := by
  induction l with
  | nil => exact List.Perm.refl _
  | cons b l ih =>
    by_cases hab : le a b = true
    · simp [insertSorted, hab]
    · simp only [insertSorted, hab, if_false, Bool.false_eq_true]
      exact (ih.cons b).trans (List.Perm.swap a b l)

theorem sortByStable_perm {α : Type} (le : α → α → Bool) (l : List α) :
    (sortByStable le l).Perm l := by
  induction l with
  | nil => exact List.Perm.refl _
  | cons a l ih => exact (insertSorted_perm le a (sortByStable le l)).trans (ih.cons a)

theorem mem_insertSorted {α : Type} {le : α → α → Bool} {a x : α} {l : List α} :
    x ∈ insertSorted le a l ↔ x = a ∨ x ∈ l := by
  rw [(insertSorted_perm le a l).mem_iff]
  simp

theorem insertSorted_pairwise {α : Type} {le : α → α → Bool}
    (htrans : ∀ a b c, le a b = true → le b c = true → le a c = true)
    (htot : ∀ a b, le a b = true ∨ le b a = true) (a : α) {l : List α}
    (h : l.Pairwise (fun x y => le x y = true)) :
    (insertSorted le a l).Pairwise (fun x y => le x y = true) := by
  induction l with
  | nil => simp [insertSorted]
  | cons b l ih =>
    rcases List.pairwise_cons.mp h with ⟨hb, hl⟩
    by_cases hab : le a b = true
    · simp only [insertSorted, hab, if_true]
      refine List.pairwise_cons.mpr ⟨?_, h⟩
      intro x hx
      rcases List.mem_cons.mp hx with hx | hx
      · rw [hx]; exact hab
      · exact htrans a b x hab (hb x hx)
    · have hba : le b a = true := (htot a b).resolve_left hab
      simp only [insertSorted, hab, if_false, Bool.false_eq_true]
      refine List.pairwise_cons.mpr ⟨?_, ih hl⟩
      intro x hx
      rcases mem_insertSorted.mp hx with hx | hx
      · rw [hx]; exact hba
      · exact hb x hx

theorem sortByStable_pairwise {α : Type} (le : α → α → Bool)
    (htrans : ∀ a b c, le a b = true → le b c = true → le a c = true)
    (htot : ∀ a b, le a b = true ∨ le b a = true) (l : List α) :
    (sortByStable le l).Pairwise (fun x y => le x y = true) := by
  induction l with
  | nil => simp [sortByStable]
  | cons a l ih => exact insertSorted_pairwise htrans htot a ih

theorem sortByStable_eq_self {α : Type} {le : α → α → Bool} {l : List α}
    (h : l.Pairwise (fun x y => le x y = true)) : sortByStable le l = l := by
  induction l with
  | nil => rfl
  | cons a l ih =>
    rcases List.pairwise_cons.mp h with ⟨ha, hl⟩
    rw [sortByStable, ih hl]
    cases l with
    | nil => rfl
    | cons b l2 => simp [insertSorted, ha b (List.mem_cons_self b l2)]

/-! ## List index helpers -/

theorem modifyIdx_spec {α : Type} (f : α → α) :
    ∀ (l : List α) (i : Nat) (h : i < l.length),
      modifyIdx f i l = l.take i ++ f (l.get ⟨i, h⟩) :: l.drop (i + 1) := by
  intro l
  induction l with
  | nil => intro i h; simp at h
  | cons a l ih =>
    intro i h
    cases i with
    | zero => simp [modifyIdx]
    | succ n =>
      have hn : n < l.length := by simpa using h
      simp [modifyIdx, ih n hn]

theorem take_get_drop {α : Type} :
    ∀ (l : List α) (i : Nat) (h : i < l.length),
      l.take i ++ l.get ⟨i, h⟩ :: l.drop (i + 1) = l := by
  intro l
  induction l with
  | nil => intro i h; simp at h
  | cons a l ih =>
    intro i h
    cases i with
    | zero => simp
    | succ n =>
      have hn : n < l.length := by simpa using h
      simp [ih n hn]

/-! ## Hash-chain lemmas -/

theorem tailHash_append (prev : Option (List Nat)) (l : List AuditEntry) (e : AuditEntry) :
    tailHash prev (l ++ [e]) = some e.hash := by
  induction l generalizing prev with
  | nil => rfl
  | cons a l ih => exact ih (some a.hash)

theorem chainOk_append {H : List Nat → List Nat} {prev : Option (List Nat)}
    {l : List AuditEntry} (h : chainOk H prev l) (e : AuditEntry)
    (h1 : e.previous_hash = tailHash prev l)
    (h2 : e.hash = entryCalcHash H e (tailHash prev l)) :
    chainOk H prev (l ++ [e]) := by
  induction l generalizing prev with
  | nil => exact ⟨h1, h2, trivial⟩
  | cons a l ih =>
    obtain ⟨ha1, ha2, ha3⟩ := h
    exact ⟨ha1, ha2, ih ha3 h1 h2⟩

theorem chainOk_split {H : List Nat → List Nat} :
    ∀ {l1 l2 : List AuditEntry} {prev : Option (List Nat)},
      chainOk H prev (l1 ++ l2) →
      chainOk H prev l1 ∧ chainOk H (tailHash prev l1) l2 := by
  intro l1
  induction l1 with
  | nil => intro l2 prev h; exact ⟨trivial, h⟩
  | cons a l1 ih =>
    intro l2 prev h
    obtain ⟨h1, h2, h3⟩ := h
    obtain ⟨h4, h5⟩ := ih h3
    exact ⟨⟨h1, h2, h4⟩, h5⟩

theorem verifyChainList_ok {H : List Nat → List Nat} :
    ∀ {l : List AuditEntry} {prev : Option (List Nat)}, chainOk H prev l →
      verifyChainList H l prev = Except.ok "Audit chain verification successful" := by
  intro l
  induction l with
  | nil => intro prev _; rfl
  | cons a l ih =>
    intro prev h
    obtain ⟨h1, h2, h3⟩ := h
    simp [verifyChainList, h1, h2.symm, ih h3]

theorem verifyChainList_append {H : List Nat → List Nat} :
    ∀ {l1 l2 : List AuditEntry} {prev : Option (List Nat)}, chainOk H prev l1 →
      verifyChainList H (l1 ++ l2) prev = verifyChainList H l2 (tailHash prev l1) := by
  intro l1
  induction l1 with
  | nil => intro l2 prev _; rfl
  | cons a l1 ih =>
    intro l2 prev h
    obtain ⟨h1, h2, h3⟩ := h
    simp [verifyChainList, h1, h2.symm, ih h3, tailHash]

theorem verifyChainList_hash_mismatch {H : List Nat → List Nat} {e : AuditEntry}
    {rest : List AuditEntry} {prev : Option (List Nat)}
    (h : entryCalcHash H e prev ≠ e.hash) :
    verifyChainList H (e :: rest) prev
      = Except.error ("Hash mismatch in entry: " ++ e.id) := by
  simp [verifyChainList, h]

theorem verifyChainList_chain_break {H : List Nat → List Nat} {e : AuditEntry}
    {rest : List AuditEntry} {prev : Option (List Nat)}
    (h1 : entryCalcHash H e prev = e.hash) (h2 : e.previous_hash ≠ prev) :
    verifyChainList H (e :: rest) prev
      = Except.error ("Chain integrity broken at entry: " ++ e.id) := by
  simp [verifyChainList, h1, h2]

theorem chainOk_selfConsistent {H : List Nat → List Nat} :
    ∀ {l : List AuditEntry} {prev : Option (List Nat)}, chainOk H prev l →
      ∀ e ∈ l, entryCalcHash H e e.previous_hash = e.hash := by
  intro l
  induction l with
  | nil => intro prev _ e he; simp at he
  | cons a l ih =>
    intro prev h e he
    obtain ⟨h1, h2, h3⟩ := h
    rcases List.mem_cons.mp he with he | he
    · rw [he, h1]; exact h2.symm
    · exact ih h3 e he

/-! ## State-step lemmas for appends -/

theorem insertEntry_fresh {st : AuditState} {e : AuditEntry}
    (h : e.id ∉ st.audit_entries.map AuditEntry.id) :
    insertEntry st e = { st with audit_entries := st.audit_entries ++ [e] } := by
  have hany : st.audit_entries.any (fun x => decide (x.id = e.id)) = false := by
    rw [Bool.eq_false_iff]
    intro hc
    rcases List.any_eq_true.mp hc with ⟨x, hx, hxe⟩
    exact h (List.mem_map.mpr ⟨x, hx, of_decide_eq_true hxe⟩)
  simp [insertEntry, hany]

theorem appendOne_entries {H : List Nat → List Nat} {st : AuditState} {r : AppendReq}
    (h : r.entry_id ∉ st.audit_entries.map AuditEntry.id) :
    (appendOne H st r).audit_entries = st.audit_entries ++ [newEntry H st r] := by
  rw [appendOne, insertEntry_fresh h]
  rfl

theorem appendOne_last_entry_hash {H : List Nat → List Nat} {st : AuditState} {r : AppendReq} :
    (appendOne H st r).last_entry_hash = some (newEntry H st r).hash := by
  rw [appendOne, insertEntry]
  split <;> rfl

theorem appendOne_auditors {H : List Nat → List Nat} {st : AuditState} {r : AppendReq} :
    (appendOne H st r).auditors = st.auditors := by
  rw [appendOne, insertEntry]
  split <;> rfl

theorem appendOne_audit_settings {H : List Nat → List Nat} {st : AuditState} {r : AppendReq} :
    (appendOne H st r).audit_settings = st.audit_settings := by
  rw [appendOne, insertEntry]
  split <;> rfl

theorem appendOne_compliance_reports {H : List Nat → List Nat} {st : AuditState} {r : AppendReq} :
    (appendOne H st r).compliance_reports = st.compliance_reports := by
  rw [appendOne, insertEntry]
  split <;> rfl

theorem newEntry_previous_hash {H : List Nat → List Nat} {st : AuditState} {r : AppendReq} :
    (newEntry H st r).previous_hash = st.last_entry_hash := rfl

theorem newEntry_timestamp {H : List Nat → List Nat} {st : AuditState} {r : AppendReq} :
    (newEntry H st r).timestamp = r.now := rfl

theorem newEntry_id {H : List Nat → List Nat} {st : AuditState} {r : AppendReq} :
    (newEntry H st r).id = r.entry_id := rfl

theorem newEntry_hash {H : List Nat → List Nat} {st : AuditState} {r : AppendReq} :
    (newEntry H st r).hash = entryCalcHash H (newEntry H st r) st.last_entry_hash := rfl

theorem appendOne_invariant {H : List Nat → List Nat} {st : AuditState} {r : AppendReq}
    (hinv : ledgerInvariant H st)
    (hfresh : r.entry_id ∉ st.audit_entries.map AuditEntry.id) :
    ledgerInvariant H (appendOne H st r) := by
  obtain ⟨hchain, htail⟩ := hinv
  constructor
  · rw [appendOne_entries hfresh]
    exact chainOk_append hchain (newEntry H st r)
      (by rw [newEntry_previous_hash, htail])
      (by rw [newEntry_hash, htail])
  · rw [appendOne_entries hfresh, appendOne_last_entry_hash, tailHash_append]

theorem appendAll_spec (H : List Nat → List Nat) :
    ∀ (rs : List AppendReq) (st : AuditState), ledgerInvariant H st →
      (st.audit_entries.map AuditEntry.id ++ rs.map AppendReq.entry_id).Nodup →
      ledgerInvariant H (appendAll H st rs) ∧
      (appendAll H st rs).audit_entries.map AuditEntry.id
        = st.audit_entries.map AuditEntry.id ++ rs.map AppendReq.entry_id ∧
      (appendAll H st rs).audit_entries.map AuditEntry.timestamp
        = st.audit_entries.map AuditEntry.timestamp ++ rs.map AppendReq.now ∧
      (appendAll H st rs).auditors = st.auditors ∧
      (appendAll H st rs).audit_settings = st.audit_settings := by
  intro rs
  induction rs with
  | nil => intro st hinv _; simpa [appendAll] using hinv
  | cons r rs ih =>
    intro st hinv hnodup
    have hfresh : r.entry_id ∉ st.audit_entries.map AuditEntry.id := by
      rcases List.nodup_append.mp hnodup with ⟨_, _, hdisj⟩
      intro hc
      exact hdisj hc (by simp)
    have hstep : appendAll H st (r :: rs) = appendAll H (appendOne H st r) rs := rfl
    have hinv1 : ledgerInvariant H (appendOne H st r) := appendOne_invariant hinv hfresh
    have hids1 : (appendOne H st r).audit_entries.map AuditEntry.id
        = st.audit_entries.map AuditEntry.id ++ [r.entry_id] := by
      rw [appendOne_entries hfresh]
      simp [newEntry_id]
    have hts1 : (appendOne H st r).audit_entries.map AuditEntry.timestamp
        = st.audit_entries.map AuditEntry.timestamp ++ [r.now] := by
      rw [appendOne_entries hfresh]
      simp [newEntry_timestamp]
    have hnodup1 : ((appendOne H st r).audit_entries.map AuditEntry.id
        ++ rs.map AppendReq.entry_id).Nodup := by
      rw [hids1, List.append_assoc]
      simpa using hnodup
    obtain ⟨k1, k2, k3, k4, k5⟩ := ih (appendOne H st r) hinv1 hnodup1
    refine ⟨by rw [hstep]; exact k1, ?_, ?_, ?_, ?_⟩
    · rw [hstep, k2, hids1, List.append_assoc]; rfl
    · rw [hstep, k3, hts1, List.append_assoc]; rfl
    · rw [hstep, k4, appendOne_auditors]
    · rw [hstep, k5, appendOne_audit_settings]

/-! ## Read-operation helper lemmas -/

theorem log_audit_access_eq_appendOne (H : List Nat → List Nat) (st : AuditState)
    (actor : Principal) (method resource_id entry_id : String) (now : Nat) :
    log_audit_access H st actor method resource_id entry_id now
      = appendOne H st (accessReq actor method resource_id entry_id now) := rfl

theorem is_authorized_auditor_congr {st1 st2 : AuditState}
    (h : st1.auditors = st2.auditors) (p : Principal) :
    is_authorized_auditor st1 p = is_authorized_auditor st2 p := by
  simp [is_authorized_auditor, h]

theorem query_audit_entries_state {H : List Nat → List Nat} {st : AuditState}
    {caller : Principal} {q : AuditQuery} {accessId : String} {now : Nat}
    (hauth : is_authorized_auditor st caller = true) :
    (query_audit_entries H st caller q accessId now).2
      = log_audit_access H st caller "query_audit_entries" "multiple" accessId now := by
  simp only [query_audit_entries, hauth, Bool.not_true, Bool.false_eq_true, if_false]
  cases q.offset with
  | none => rfl
  | some off =>
    simp only []
    split <;> rfl

/-! ## Filter characterization -/

theorem matches_clause_eventTypes (e : AuditEntry) (q : AuditQuery) :
    (match q.event_types with
     | some event_types => decide (e.event_type ∈ event_types)
     | none => true) = true ↔ ∀ l, q.event_types = some l → e.event_type ∈ l := by
  cases hq : q.event_types <;> simp

theorem matches_clause_resourceTypes (e : AuditEntry) (q : AuditQuery) :
    (match q.resource_types with
     | some resource_types => decide (e.resource_type ∈ resource_types)
     | none => true) = true ↔ ∀ l, q.resource_types = some l → e.resource_type ∈ l := by
  cases hq : q.resource_types <;> simp

theorem matches_clause_actors (e : AuditEntry) (q : AuditQuery) :
    (match q.actors with
     | some actors => decide (e.actor ∈ actors)
     | none => true) = true ↔ ∀ l, q.actors = some l → e.actor ∈ l := by
  cases hq : q.actors <;> simp

theorem matches_clause_resourceIds (e : AuditEntry) (q : AuditQuery) :
    (match q.resource_ids with
     | some resource_ids => decide (e.resource_id ∈ resource_ids)
     | none => true) = true ↔ ∀ l, q.resource_ids = some l → e.resource_id ∈ l := by
  cases hq : q.resource_ids <;> simp

theorem matches_clause_startTime (e : AuditEntry) (q : AuditQuery) :
    (match q.start_time with
     | some start_time => decide (start_time ≤ e.timestamp)
     | none => true) = true ↔ ∀ t, q.start_time = some t → t ≤ e.timestamp := by
  cases hq : q.start_time <;> simp

theorem matches_clause_endTime (e : AuditEntry) (q : AuditQuery) :
    (match q.end_time with
     | some end_time => decide (e.timestamp ≤ end_time)
     | none => true) = true ↔ ∀ t, q.end_time = some t → e.timestamp ≤ t := by
  cases hq : q.end_time <;> simp

theorem matches_clause_compliance (e : AuditEntry) (q : AuditQuery) :
    (!(q.compliance_relevant_only && !e.compliance_relevant)) = true ↔
      (q.compliance_relevant_only = true → e.compliance_relevant = true) := by
  cases hq : q.compliance_relevant_only <;> cases hc : e.compliance_relevant <;> simp

theorem matches_query_iff (e : AuditEntry) (q : AuditQuery) :
    matches_query e q = true ↔
      (∀ l, q.event_types = some l → e.event_type ∈ l) ∧
      (∀ l, q.resource_types = some l → e.resource_type ∈ l) ∧
      (∀ l, q.actors = some l → e.actor ∈ l) ∧
      (∀ l, q.resource_ids = some l → e.resource_id ∈ l) ∧
      (∀ t, q.start_time = some t → t ≤ e.timestamp) ∧
      (∀ t, q.end_time = some t → e.timestamp ≤ t) ∧
      (q.compliance_relevant_only = true → e.compliance_relevant = true) := by
  rw [matches_query]
  simp only [Bool.and_eq_true]
  rw [matches_clause_eventTypes, matches_clause_resourceTypes, matches_clause_actors,
    matches_clause_resourceIds, matches_clause_startTime, matches_clause_endTime,
    matches_clause_compliance]
  tauto

/-! ## Claim C9 -/

/-- Claim C9: `log_audit_event` never returns an error: for every caller
identity and every combination of arguments (including empty `resource_id`,
`action` and `details` strings), it returns `Ok` with the new entry's id; no
input validation is performed and no caller authorization is required (the
statement quantifies over every caller and every state, auditor or not). -/
theorem claim9_log_event_total (H : List Nat → List Nat) (st : AuditState)
    (caller : Principal) (event_type : EventType) (resource_type : ResourceType)
    (resource_id action details : String) (metadata : Option AuditMetadata)
    (compliance_relevant : Bool) (entry_id accessId : String)
    (now accessNow : Nat) :
    (log_audit_event H st caller event_type resource_type resource_id action
        details metadata compliance_relevant entry_id accessId now accessNow).1
      = Except.ok entry_id := rfl

/-! ## Claim C10 -/

/-- Claim C10: a read operation invoked by an identity that is not a
registered auditor leaves all ledger state unchanged — in particular no
`AuditAccess` entry is recorded for the denied attempt, since the access
check precedes the call to `log_audit_access` in every read operation. -/
theorem claim10_unauthorized_reads_pure (H : List Nat → List Nat)
    (st : AuditState) (caller : Principal) (q : AuditQuery)
    (entry_id report_id accessId : String) (now : Nat)
    (h : is_authorized_auditor st caller = false) :
    (query_audit_entries H st caller q accessId now).2 = st ∧
    (get_audit_entry H st caller entry_id accessId now).2 = st ∧
    (verify_audit_chain H st caller accessId now).2 = st ∧
    (get_compliance_report H st caller report_id accessId now).2 = st ∧
    (list_compliance_reports H st caller accessId now).2 = st ∧
    (get_audit_statistics H st caller accessId now).2 = st := by
  refine ⟨?_, ?_, ?_, ?_, ?_, ?_⟩ <;>
    simp [query_audit_entries, get_audit_entry, verify_audit_chain,
      get_compliance_report, list_compliance_reports, get_audit_statistics, h]

/-- Witness for C10 at a concrete unauthorized caller and empty ledger. -/
theorem claim10_unauthorized_reads_pure_witness :
    (query_audit_entries idDigest (emptyLedger defaultSettings []) ⟨"intruder"⟩
        scenarioQuery "a1" 7).2 = emptyLedger defaultSettings [] ∧
    (get_audit_entry idDigest (emptyLedger defaultSettings []) ⟨"intruder"⟩
        "e" "a2" 7).2 = emptyLedger defaultSettings [] ∧
    (verify_audit_chain idDigest (emptyLedger defaultSettings []) ⟨"intruder"⟩
        "a3" 7).2 = emptyLedger defaultSettings [] ∧
    (get_compliance_report idDigest (emptyLedger defaultSettings []) ⟨"intruder"⟩
        "r" "a4" 7).2 = emptyLedger defaultSettings [] ∧
    (list_compliance_reports idDigest (emptyLedger defaultSettings []) ⟨"intruder"⟩
        "a5" 7).2 = emptyLedger defaultSettings [] ∧
    (get_audit_statistics idDigest (emptyLedger defaultSettings []) ⟨"intruder"⟩
        "a6" 7).2 = emptyLedger defaultSettings [] :=
  claim10_unauthorized_reads_pure idDigest (emptyLedger defaultSettings [])
    ⟨"intruder"⟩ scenarioQuery "e" "r" "a1" 7 (by decide)

/-! ## Claim C3 -/

/-- Counterexample to claim C3 as stated: `verify_audit_chain` called by an
identity that is not a registered auditor returns the distinguishable error
"Unauthorized access", not an empty or absent result. -/
theorem claim3_cex :
    (verify_audit_chain idDigest (emptyLedger defaultSettings []) ⟨"intruder"⟩
        "a" 0).1 = Except.error "Unauthorized access" := rfl

/-- Claim C3 (amended): for every identity that is not a registered auditor,
the read operations `query_audit_entries`, `get_audit_entry`,
`get_compliance_report`, `list_compliance_reports` and `get_audit_statistics`
return an empty or absent result (never a partial one), but
`verify_audit_chain` instead returns the explicit error "Unauthorized
access". -/
theorem claim3_unauthorized_read_shapes (H : List Nat → List Nat)
    (st : AuditState) (caller : Principal) (q : AuditQuery)
    (entry_id report_id accessId : String) (now : Nat)
    (h : is_authorized_auditor st caller = false) :
    (query_audit_entries H st caller q accessId now).1 = [] ∧
    (get_audit_entry H st caller entry_id accessId now).1 = none ∧
    (get_compliance_report H st caller report_id accessId now).1 = none ∧
    (list_compliance_reports H st caller accessId now).1 = [] ∧
    (get_audit_statistics H st caller accessId now).1 = [] ∧
    (verify_audit_chain H st caller accessId now).1
      = Except.error "Unauthorized access" := by
  refine ⟨?_, ?_, ?_, ?_, ?_, ?_⟩ <;>
    simp [query_audit_entries, get_audit_entry, get_compliance_report,
      list_compliance_reports, get_audit_statistics, verify_audit_chain, h]

/-- Witness for the amended C3 at a concrete unauthorized caller. -/
theorem claim3_unauthorized_read_shapes_witness :
    (query_audit_entries idDigest (emptyLedger defaultSettings []) ⟨"x"⟩
        scenarioQuery "a1" 3).1 = [] ∧
    (get_audit_entry idDigest (emptyLedger defaultSettings []) ⟨"x"⟩
        "e" "a2" 3).1 = none ∧
    (get_compliance_report idDigest (emptyLedger defaultSettings []) ⟨"x"⟩
        "r" "a3" 3).1 = none ∧
    (list_compliance_reports idDigest (emptyLedger defaultSettings []) ⟨"x"⟩
        "a4" 3).1 = [] ∧
    (get_audit_statistics idDigest (emptyLedger defaultSettings []) ⟨"x"⟩
        "a5" 3).1 = [] ∧
    (verify_audit_chain idDigest (emptyLedger defaultSettings []) ⟨"x"⟩
        "a6" 3).1 = Except.error "Unauthorized access" :=
  claim3_unauthorized_read_shapes idDigest (emptyLedger defaultSettings [])
    ⟨"x"⟩ scenarioQuery "e" "r" "a1" 3 (by decide)

/-! ## Claim C8 -/

/-- Counterexample to claim C8 as stated: with `retention_days` at the `u32`
maximum, the computed `retention_until` wraps at `2^64` (Rust release-mode
`u64` arithmetic) and is NOT `timestamp + retention_days × 86 400 × 10^9`. -/
theorem claim8_cex :
    (create_audit_entry idDigest
        (emptyLedger { defaultSettings with retention_days := 4294967295 } [])
        "e" 0 EventType.ComplianceCheck ⟨"p"⟩ ResourceType.System "r" "a" "d"
        AuditMetadata.default true).1.retention_until
      ≠ some (0 + 4294967295 * 24 * 60 * 60 * 1000000000) := by decide

/-- Claim C8 (amended): for every entry created with
`compliance_relevant = true`, `retention_until` equals
`(timestamp + retention_days × 24 × 60 × 60 × 10^9) mod 2^64` (wrapping `u64`
arithmetic) with the `retention_days` of the Settings current at creation
time; whenever that sum is below `2^64` — in particular for the default
settings and realistic timestamps — this is exactly
`timestamp + retention_days × 24 × 60 × 60 × 10^9`.  For every entry created
with `compliance_relevant = false`, `retention_until` is absent. -/
theorem claim8_retention (H : List Nat → List Nat) (st : AuditState)
    (entry_id : String) (now : Nat) (event_type : EventType) (actor : Principal)
    (resource_type : ResourceType) (resource_id action details : String)
    (metadata : AuditMetadata) :
    ((create_audit_entry H st entry_id now event_type actor resource_type
        resource_id action details metadata true).1.retention_until
      = some ((now + st.audit_settings.retention_days * 24 * 60 * 60 * 1000000000 % u64Mod) % u64Mod)) ∧
    (now + st.audit_settings.retention_days * 24 * 60 * 60 * 1000000000 < u64Mod →
      (create_audit_entry H st entry_id now event_type actor resource_type
          resource_id action details metadata true).1.retention_until
        = some (now + st.audit_settings.retention_days * 24 * 60 * 60 * 1000000000)) ∧
    ((create_audit_entry H st entry_id now event_type actor resource_type
        resource_id action details metadata false).1.retention_until = none) := by
  refine ⟨rfl, ?_, rfl⟩
  intro hlt
  have hp : st.audit_settings.retention_days * 24 * 60 * 60 * 1000000000 < u64Mod :=
    lt_of_le_of_lt (Nat.le_add_left _ _) hlt
  show some ((now + st.audit_settings.retention_days * 24 * 60 * 60 * 1000000000 % u64Mod) % u64Mod) = _
  rw [Nat.mod_eq_of_lt hp, Nat.mod_eq_of_lt hlt]

/-- Witness for the amended C8 at default settings and a realistic
nanosecond timestamp. -/
theorem claim8_retention_witness :
    ((create_audit_entry idDigest oneAuditorLedger "e" 1700000000000000000
        EventType.ComplianceCheck auditorP ResourceType.System "r" "a" "d"
        AuditMetadata.default true).1.retention_until
      = some ((1700000000000000000 + 2555 * 24 * 60 * 60 * 1000000000 % u64Mod) % u64Mod)) ∧
    (1700000000000000000 + 2555 * 24 * 60 * 60 * 1000000000 < u64Mod →
      (create_audit_entry idDigest oneAuditorLedger "e" 1700000000000000000
          EventType.ComplianceCheck auditorP ResourceType.System "r" "a" "d"
          AuditMetadata.default true).1.retention_until
        = some (1700000000000000000 + 2555 * 24 * 60 * 60 * 1000000000)) ∧
    ((create_audit_entry idDigest oneAuditorLedger "e" 1700000000000000000
        EventType.ComplianceCheck auditorP ResourceType.System "r" "a" "d"
        AuditMetadata.default false).1.retention_until = none) :=
  claim8_retention idDigest oneAuditorLedger "e" 1700000000000000000
    EventType.ComplianceCheck auditorP ResourceType.System "r" "a" "d"
    AuditMetadata.default

/-! ## Claim C7 -/

/-- Counterexample to claim C7 as stated: supplying an EMPTY list of event
types does restrict the results — `matches_query` then rejects every entry
(here a concrete entry failing against a query whose only criterion is
`event_types = some []`). -/
theorem claim7_cex :
    matches_query
      { id := "e", timestamp := 5, event_type := EventType.KycUpdate,
        actor := ⟨"p"⟩, resource_type := ResourceType.KycProfile,
        resource_id := "r", action := "a", details := "d",
        metadata := AuditMetadata.default, hash := [], previous_hash := none,
        compliance_relevant := false, retention_until := none }
      { event_types := some [], resource_types := none, actors := none,
        resource_ids := none, start_time := none, end_time := none,
        compliance_relevant_only := false, limit := none, offset := none }
      = false := by decide

/-- Claim C7 (amended): filtering in `matches_query` is conjunctive across
every supplied criterion, and an ABSENT (`none`) criterion places no
restriction; but a criterion supplied as an EMPTY list matches no entry at
all (for each of the four list-valued criteria). -/
theorem claim7_conjunctive_filters (e : AuditEntry) (q : AuditQuery) :
    (matches_query e q = true ↔
      (∀ l, q.event_types = some l → e.event_type ∈ l) ∧
      (∀ l, q.resource_types = some l → e.resource_type ∈ l) ∧
      (∀ l, q.actors = some l → e.actor ∈ l) ∧
      (∀ l, q.resource_ids = some l → e.resource_id ∈ l) ∧
      (∀ t, q.start_time = some t → t ≤ e.timestamp) ∧
      (∀ t, q.end_time = some t → e.timestamp ≤ t) ∧
      (q.compliance_relevant_only = true → e.compliance_relevant = true)) ∧
    (q.event_types = some [] → matches_query e q = false) ∧
    (q.resource_types = some [] → matches_query e q = false) ∧
    (q.actors = some [] → matches_query e q = false) ∧
    (q.resource_ids = some [] → matches_query e q = false) := by
  refine ⟨matches_query_iff e q, ?_, ?_, ?_, ?_⟩ <;>
  · intro hq
    rw [Bool.eq_false_iff]
    intro hc
    rcases (matches_query_iff e q).mp hc with ⟨c1, c2, c3, c4, _⟩
    first
    | exact absurd (c1 [] hq) (List.not_mem_nil _)
    | exact absurd (c2 [] hq) (List.not_mem_nil _)
    | exact absurd (c3 [] hq) (List.not_mem_nil _)
    | exact absurd (c4 [] hq) (List.not_mem_nil _)

/-- Witness for the amended C7: a concrete entry against a query with an
absent event-type criterion and a supplied time window it satisfies. -/
theorem claim7_conjunctive_filters_witness :
    (matches_query
        { id := "w", timestamp := 150, event_type := EventType.KycUpdate,
          actor := ⟨"p"⟩, resource_type := ResourceType.KycProfile,
          resource_id := "r", action := "a", details := "d",
          metadata := AuditMetadata.default, hash := [], previous_hash := none,
          compliance_relevant := true, retention_until := none }
        scenarioQuery = true ↔
      (∀ l, scenarioQuery.event_types = some l → EventType.KycUpdate ∈ l) ∧
      (∀ l, scenarioQuery.resource_types = some l → ResourceType.KycProfile ∈ l) ∧
      (∀ l, scenarioQuery.actors = some l → (⟨"p"⟩ : Principal) ∈ l) ∧
      (∀ l, scenarioQuery.resource_ids = some l → "r" ∈ l) ∧
      (∀ t, scenarioQuery.start_time = some t → t ≤ 150) ∧
      (∀ t, scenarioQuery.end_time = some t → 150 ≤ t) ∧
      (scenarioQuery.compliance_relevant_only = true → true = true)) ∧
    (scenarioQuery.event_types = some [] →
      matches_query
        { id := "w", timestamp := 150, event_type := EventType.KycUpdate,
          actor := ⟨"p"⟩, resource_type := ResourceType.KycProfile,
          resource_id := "r", action := "a", details := "d",
          metadata := AuditMetadata.default, hash := [], previous_hash := none,
          compliance_relevant := true, retention_until := none }
        scenarioQuery = false) ∧
    (scenarioQuery.resource_types = some [] →
      matches_query
        { id := "w", timestamp := 150, event_type := EventType.KycUpdate,
          actor := ⟨"p"⟩, resource_type := ResourceType.KycProfile,
          resource_id := "r", action := "a", details := "d",
          metadata := AuditMetadata.default, hash := [], previous_hash := none,
          compliance_relevant := true, retention_until := none }
        scenarioQuery = false) ∧
    (scenarioQuery.actors = some [] →
      matches_query
        { id := "w", timestamp := 150, event_type := EventType.KycUpdate,
          actor := ⟨"p"⟩, resource_type := ResourceType.KycProfile,
          resource_id := "r", action := "a", details := "d",
          metadata := AuditMetadata.default, hash := [], previous_hash := none,
          compliance_relevant := true, retention_until := none }
        scenarioQuery = false) ∧
    (scenarioQuery.resource_ids = some [] →
      matches_query
        { id := "w", timestamp := 150, event_type := EventType.KycUpdate,
          actor := ⟨"p"⟩, resource_type := ResourceType.KycProfile,
          resource_id := "r", action := "a", details := "d",
          metadata := AuditMetadata.default, hash := [], previous_hash := none,
          compliance_relevant := true, retention_until := none }
        scenarioQuery = false) :=
  claim7_conjunctive_filters
    { id := "w", timestamp := 150, event_type := EventType.KycUpdate,
      actor := ⟨"p"⟩, resource_type := ResourceType.KycProfile,
      resource_id := "r", action := "a", details := "d",
      metadata := AuditMetadata.default, hash := [], previous_hash := none,
      compliance_relevant := true, retention_until := none }
    scenarioQuery

/-! ## Claim C4 -/

/-- Claim C4: every call to `query_audit_entries` by a registered auditor
grows the stored entries by exactly one — the `AuditAccess` access-log entry
appended by `log_audit_access` — and that access-log entry is created by the
internal `create_audit_entry` path, so it does not itself trigger another
access-log entry: the resulting entry list is exactly the old list plus the
single access entry. -/
theorem claim4_self_audit (H : List Nat → List Nat) (st : AuditState)
    (caller : Principal) (q : AuditQuery) (accessId : String) (now : Nat)
    (hauth : is_authorized_auditor st caller = true)
    (hfresh : accessId ∉ st.audit_entries.map AuditEntry.id) :
    ((query_audit_entries H st caller q accessId now).2).audit_entries
      = st.audit_entries
        ++ [newEntry H st (accessReq caller "query_audit_entries" "multiple" accessId now)] ∧
    ((query_audit_entries H st caller q accessId now).2).audit_entries.length
      = st.audit_entries.length + 1 ∧
    (newEntry H st (accessReq caller "query_audit_entries" "multiple" accessId now)).event_type
      = EventType.AuditAccess := by
  have hstate : (query_audit_entries H st caller q accessId now).2
      = log_audit_access H st caller "query_audit_entries" "multiple" accessId now :=
    query_audit_entries_state hauth
  have hentries : ((query_audit_entries H st caller q accessId now).2).audit_entries
      = st.audit_entries
        ++ [newEntry H st (accessReq caller "query_audit_entries" "multiple" accessId now)] := by
    rw [hstate, log_audit_access_eq_appendOne]
    exact appendOne_entries hfresh
  refine ⟨hentries, ?_, rfl⟩
  rw [hentries]
  simp

/-- Witness for C4: a concrete authorized query on the two-entry ledger. -/
theorem claim4_self_audit_witness :
    ((query_audit_entries idDigest twoEntryState auditorP scenarioQuery
        "acc1" 900).2).audit_entries
      = twoEntryState.audit_entries
        ++ [newEntry idDigest twoEntryState
              (accessReq auditorP "query_audit_entries" "multiple" "acc1" 900)] ∧
    ((query_audit_entries idDigest twoEntryState auditorP scenarioQuery
        "acc1" 900).2).audit_entries.length
      = twoEntryState.audit_entries.length + 1 ∧
    (newEntry idDigest twoEntryState
        (accessReq auditorP "query_audit_entries" "multiple" "acc1" 900)).event_type
      = EventType.AuditAccess :=
  claim4_self_audit idDigest twoEntryState auditorP scenarioQuery "acc1" 900
    (by decide) (by decide)

/-! ## Claim C2 -/

/-- Claim C2: for every ledger built by a sequence of appends (every write
path of the canister is one `create_audit_entry`-then-insert step), every
stored entry's hash is reproduced by recomputing
`H(id, timestamp, event_type, actor, resource_type, resource_id, action,
details, previous_hash)` over the entry's own stored fields and stored
`previous_hash` — independent of when the recomputation runs, since it is a
pure function of the stored entry. -/
theorem claim2_hash_determinism (H : List Nat → List Nat)
    (settings : AuditSettings) (auditors : List (Principal × String))
    (rs : List AppendReq) (hids : (rs.map AppendReq.entry_id).Nodup) :
    ∀ e ∈ (appendAll H (emptyLedger settings auditors) rs).audit_entries,
      calculate_entry_hash H e.id e.timestamp e.event_type e.actor
        e.resource_type e.resource_id e.action e.details e.previous_hash
        = e.hash := by
  have h0 : ledgerInvariant H (emptyLedger settings auditors) := ⟨trivial, rfl⟩
  obtain ⟨hinv, -⟩ := appendAll_spec H rs (emptyLedger settings auditors) h0
    (by simpa [emptyLedger] using hids)
  intro e he
  exact chainOk_selfConsistent hinv.1 e he

/-- Witness for C2 on the concrete two-entry ledger. -/
theorem claim2_hash_determinism_witness :
    ((twoReqs.map AppendReq.entry_id).Nodup) ∧
    (∀ e ∈ (appendAll idDigest (emptyLedger defaultSettings [(auditorP, "Admin")])
        twoReqs).audit_entries,
      calculate_entry_hash idDigest e.id e.timestamp e.event_type e.actor
        e.resource_type e.resource_id e.action e.details e.previous_hash
        = e.hash) :=
  ⟨by decide,
   claim2_hash_determinism idDigest defaultSettings [(auditorP, "Admin")]
     twoReqs (by decide)⟩

/-! ## Claim C6 -/

/-- Claim C6: for an authorized auditor, `query_audit_entries` with
`offset = O` and `limit = L` returns exactly the slice
`sorted_matches.drop O |>.take L` of the descending-sorted matching entries
(of the store at filter time, i.e. including the just-logged access entry);
when `O` reaches the number of matching entries the result is empty. -/
theorem claim6_pagination (H : List Nat → List Nat) (st : AuditState)
    (caller : Principal) (q : AuditQuery) (accessId : String) (now : Nat)
    (O L : Nat) (hauth : is_authorized_auditor st caller = true)
    (hO : q.offset = some O) (hL : q.limit = some L) :
    ((query_audit_entries H st caller q accessId now).1
      = ((sorted_matches
            (log_audit_access H st caller "query_audit_entries" "multiple" accessId now)
            q).drop O).take L) ∧
    ((sorted_matches
        (log_audit_access H st caller "query_audit_entries" "multiple" accessId now)
        q).length ≤ O →
      (query_audit_entries H st caller q accessId now).1 = []) := by
  constructor
  · simp only [query_audit_entries, hauth, Bool.not_true, Bool.false_eq_true,
      if_false, hO, hL, applyLimit]
    by_cases hlen : (sorted_matches
        (log_audit_access H st caller "query_audit_entries" "multiple" accessId now)
        q).length ≤ O
    · rw [if_pos hlen, List.drop_eq_nil_of_le hlen]
      simp
    · rw [if_neg hlen]
  · intro hlen
    simp only [query_audit_entries, hauth, Bool.not_true, Bool.false_eq_true,
      if_false, hO, hL, applyLimit, if_pos hlen]

/-- Witness for C6: offset 1, limit 1 on the two-entry ledger. -/
theorem claim6_pagination_witness :
    ((query_audit_entries idDigest twoEntryState auditorP
        { scenarioQuery with offset := some 1, limit := some 1 } "acc2" 901).1
      = ((sorted_matches
            (log_audit_access idDigest twoEntryState auditorP
              "query_audit_entries" "multiple" "acc2" 901)
            { scenarioQuery with offset := some 1, limit := some 1 }).drop 1).take 1) ∧
    ((sorted_matches
        (log_audit_access idDigest twoEntryState auditorP
          "query_audit_entries" "multiple" "acc2" 901)
        { scenarioQuery with offset := some 1, limit := some 1 }).length ≤ 1 →
      (query_audit_entries idDigest twoEntryState auditorP
        { scenarioQuery with offset := some 1, limit := some 1 } "acc2" 901).1 = []) :=
  claim6_pagination idDigest twoEntryState auditorP
    { scenarioQuery with offset := some 1, limit := some 1 } "acc2" 901 1 1
    (by decide) rfl rfl

/-! ## Claim C5 -/

set_option maxRecDepth 200000 in
/-- Claim C5: for an authorized auditor, a query with time window `[t0, t1]`
(run after the window, the realistic case: the clock reading exceeds `t1`)
returns exactly the stored entries with `t0 ≤ timestamp ≤ t1` that match all
other supplied criteria, sorted by timestamp descending; and in the concrete
scenario with A (t=100), B (t=200), C (t=150) appended in that order, the
query `start=120, end=300` returns `[B, C]` in that order, excluding A. -/
theorem claim5_time_window (H : List Nat → List Nat) (st : AuditState)
    (caller : Principal) (q : AuditQuery) (accessId : String) (now t0 t1 : Nat)
    (hauth : is_authorized_auditor st caller = true)
    (hfresh : accessId ∉ st.audit_entries.map AuditEntry.id)
    (hs : q.start_time = some t0) (hend : q.end_time = some t1)
    (hoff : q.offset = none) (hlim : q.limit = none) (hnow : t1 < now) :
    (∀ e, e ∈ (query_audit_entries H st caller q accessId now).1 ↔
      (e ∈ st.audit_entries ∧ matches_query e q = true)) ∧
    (∀ e ∈ (query_audit_entries H st caller q accessId now).1,
      t0 ≤ e.timestamp ∧ e.timestamp ≤ t1) ∧
    ((query_audit_entries H st caller q accessId now).1).Pairwise
      (fun a b => b.timestamp ≤ a.timestamp) ∧
    ((query_audit_entries idDigest scenarioState auditorP scenarioQuery
        "q1" 1000).1).map AuditEntry.id = ["B", "C"] := by
  have hres : (query_audit_entries H st caller q accessId now).1
      = sorted_matches
          (log_audit_access H st caller "query_audit_entries" "multiple" accessId now) q := by
    simp only [query_audit_entries, hauth, Bool.not_true, Bool.false_eq_true,
      if_false, hoff, hlim, applyLimit]
  have hentries : (log_audit_access H st caller "query_audit_entries" "multiple"
        accessId now).audit_entries
      = st.audit_entries
        ++ [newEntry H st (accessReq caller "query_audit_entries" "multiple" accessId now)] := by
    rw [log_audit_access_eq_appendOne]
    exact appendOne_entries hfresh
  have haccmatch : matches_query
      (newEntry H st (accessReq caller "query_audit_entries" "multiple" accessId now)) q
      = false := by
    rw [Bool.eq_false_iff]
    intro hc
    rcases (matches_query_iff _ q).mp hc with ⟨-, -, -, -, -, c6, -⟩
    have hle : now ≤ t1 := c6 t1 hend
    omega
  have hperm := sortByStable_perm (fun a b => decide (b.timestamp ≤ a.timestamp))
    ((log_audit_access H st caller "query_audit_entries" "multiple"
        accessId now).audit_entries.filter (fun e => matches_query e q))
  have hmem : ∀ e, e ∈ (query_audit_entries H st caller q accessId now).1 ↔
      (e ∈ st.audit_entries ∧ matches_query e q = true) := by
    intro e
    rw [hres, sorted_matches, hperm.mem_iff, List.mem_filter, hentries,
      List.mem_append]
    constructor
    · rintro ⟨he | he, hm⟩
      · exact ⟨he, hm⟩
      · rw [List.mem_singleton.mp he] at hm
        rw [haccmatch] at hm
        cases hm
    · rintro ⟨he, hm⟩
      exact ⟨Or.inl he, hm⟩
  refine ⟨hmem, ?_, ?_, ?_⟩
  · intro e he
    have hm := (hmem e).mp he
    rcases (matches_query_iff e q).mp hm.2 with ⟨-, -, -, -, c5, c6, -⟩
    exact ⟨c5 t0 hs, c6 t1 hend⟩
  · rw [hres, sorted_matches]
    have hp := sortByStable_pairwise
      (fun a b : AuditEntry => decide (b.timestamp ≤ a.timestamp))
      (fun a b c hab hbc =>
        decide_eq_true (le_trans (of_decide_eq_true hbc) (of_decide_eq_true hab)))
      (fun a b => by
        rcases Nat.le_total b.timestamp a.timestamp with h | h
        · exact Or.inl (decide_eq_true h)
        · exact Or.inr (decide_eq_true h))
      ((log_audit_access H st caller "query_audit_entries" "multiple"
          accessId now).audit_entries.filter (fun e => matches_query e q))
    exact hp.imp (fun h => of_decide_eq_true h)
  · decide

set_option maxRecDepth 200000 in
/-- Witness for C5 at the concrete scenario ledger and window. -/
theorem claim5_time_window_witness :
    (∀ e, e ∈ (query_audit_entries idDigest scenarioState auditorP scenarioQuery
        "q1" 1000).1 ↔
      (e ∈ scenarioState.audit_entries ∧ matches_query e scenarioQuery = true)) ∧
    (∀ e ∈ (query_audit_entries idDigest scenarioState auditorP scenarioQuery
        "q1" 1000).1, 120 ≤ e.timestamp ∧ e.timestamp ≤ 300) ∧
    ((query_audit_entries idDigest scenarioState auditorP scenarioQuery
        "q1" 1000).1).Pairwise (fun a b => b.timestamp ≤ a.timestamp) ∧
    ((query_audit_entries idDigest scenarioState auditorP scenarioQuery
        "q1" 1000).1).map AuditEntry.id = ["B", "C"] :=
  claim5_time_window idDigest scenarioState auditorP scenarioQuery "q1" 1000
    120 300 (by decide) (by decide) rfl rfl rfl rfl (by decide)

/-! ## Chain verification: success and tamper detection -/

theorem sortAsc_eq_self {l : List AuditEntry}
    (h : (l.map AuditEntry.timestamp).Pairwise (· < ·)) :
    sortByStable (fun a b => decide (a.timestamp ≤ b.timestamp)) l = l := by
  apply sortByStable_eq_self
  exact (List.pairwise_map.mp h).imp (fun hab => decide_eq_true (le_of_lt hab))

theorem chainOk_at_index {H : List Nat → List Nat} {l : List AuditEntry}
    (h : chainOk H none l) (i : Nat) (hi : i < l.length) :
    chainOk H none (l.take i) ∧
    (l.get ⟨i, hi⟩).previous_hash = tailHash none (l.take i) ∧
    (l.get ⟨i, hi⟩).hash
      = entryCalcHash H (l.get ⟨i, hi⟩) (tailHash none (l.take i)) := by
  have h2 : chainOk H none (l.take i ++ l.get ⟨i, hi⟩ :: l.drop (i + 1)) := by
    rw [take_get_drop l i hi]
    exact h
  obtain ⟨h3, h4⟩ := chainOk_split h2
  exact ⟨h3, h4.1, h4.2.1⟩

theorem verify_ok_of_invariant {H : List Nat → List Nat} {st : AuditState}
    {caller : Principal} {accessId : String} {nowv : Nat}
    (hinv : ledgerInvariant H st)
    (hauth : is_authorized_auditor st caller = true)
    (hfresh : accessId ∉ st.audit_entries.map AuditEntry.id)
    (horder : (st.audit_entries.map AuditEntry.timestamp ++ [nowv]).Pairwise (· < ·)) :
    (verify_audit_chain H st caller accessId nowv).1
      = Except.ok "Audit chain verification successful" := by
  obtain ⟨hchain, htail⟩ := hinv
  have hentries : (log_audit_access H st caller "verify_audit_chain"
        "chain_verification" accessId nowv).audit_entries
      = st.audit_entries
        ++ [newEntry H st (accessReq caller "verify_audit_chain" "chain_verification" accessId nowv)] := by
    rw [log_audit_access_eq_appendOne]
    exact appendOne_entries hfresh
  have hchain2 : chainOk H none (log_audit_access H st caller "verify_audit_chain"
      "chain_verification" accessId nowv).audit_entries := by
    rw [hentries]
    exact chainOk_append hchain _ (by rw [newEntry_previous_hash, htail])
      (by rw [newEntry_hash, htail])
  have hsort : sortByStable (fun a b => decide (a.timestamp ≤ b.timestamp))
      (log_audit_access H st caller "verify_audit_chain" "chain_verification"
        accessId nowv).audit_entries
      = (log_audit_access H st caller "verify_audit_chain" "chain_verification"
          accessId nowv).audit_entries := by
    apply sortAsc_eq_self
    rw [hentries]
    simpa [List.map_append] using horder
  simp only [verify_audit_chain, hauth, Bool.not_true, Bool.false_eq_true, if_false]
  rw [hsort, verifyChainList_ok hchain2]

theorem verify_tamper_of_invariant {H : List Nat → List Nat} {st : AuditState}
    {caller : Principal} {accessId : String} {nowv : Nat} {i : Nat}
    {m : FieldMutation} (hinj : Function.Injective H)
    (hinv : ledgerInvariant H st)
    (hauth : is_authorized_auditor st caller = true)
    (hi : i < st.audit_entries.length)
    (hcov : hashCoveredMutation m = true)
    (hch : mutChanges (st.audit_entries.get ⟨i, hi⟩) m)
    (hwb : mutWithinU64 m)
    (hts : (st.audit_entries.get ⟨i, hi⟩).timestamp < u64Mod)
    (hacc : accessId ∉ (modifyIdx (fun e => applyMutation e m) i
        st.audit_entries).map AuditEntry.id)
    (horder : ((modifyIdx (fun e => applyMutation e m) i
        st.audit_entries).map AuditEntry.timestamp ++ [nowv]).Pairwise (· < ·)) :
    (verify_audit_chain H (tamperAt st i m) caller accessId nowv).1
      = Except.error (mutationErrorMsg
          (applyMutation (st.audit_entries.get ⟨i, hi⟩) m) m) := by
  obtain ⟨hchain, htail⟩ := hinv
  obtain ⟨htake, hp, hh⟩ := chainOk_at_index hchain i hi
  have hmut : modifyIdx (fun e => applyMutation e m) i st.audit_entries
      = st.audit_entries.take i
        ++ applyMutation (st.audit_entries.get ⟨i, hi⟩) m :: st.audit_entries.drop (i + 1) :=
    modifyIdx_spec _ _ _ hi
  have hauth2 : is_authorized_auditor (tamperAt st i m) caller = true := hauth
  have hentries : (log_audit_access H (tamperAt st i m) caller "verify_audit_chain"
        "chain_verification" accessId nowv).audit_entries
      = (modifyIdx (fun e => applyMutation e m) i st.audit_entries)
        ++ [newEntry H st (accessReq caller "verify_audit_chain" "chain_verification" accessId nowv)] := by
    rw [log_audit_access_eq_appendOne]
    exact appendOne_entries hacc
  have hsort : sortByStable (fun a b => decide (a.timestamp ≤ b.timestamp))
      (log_audit_access H (tamperAt st i m) caller "verify_audit_chain"
        "chain_verification" accessId nowv).audit_entries
      = (log_audit_access H (tamperAt st i m) caller "verify_audit_chain"
          "chain_verification" accessId nowv).audit_entries := by
    apply sortAsc_eq_self
    rw [hentries]
    simpa [List.map_append] using horder
  simp only [verify_audit_chain, hauth2, Bool.not_true, Bool.false_eq_true, if_false]
  rw [hsort, hentries, hmut, List.append_assoc, List.cons_append,
    verifyChainList_append htake]
  cases m with
  | mutMetadata v => simp [hashCoveredMutation] at hcov
  | mutComplianceRelevant v => simp [hashCoveredMutation] at hcov
  | mutRetentionUntil v => simp [hashCoveredMutation] at hcov
  | mutId v =>
    simp only [mutChanges] at hch
    have hne : entryCalcHash H
        (applyMutation (st.audit_entries.get ⟨i, hi⟩) (FieldMutation.mutId v))
        (tailHash none (st.audit_entries.take i))
        ≠ (applyMutation (st.audit_entries.get ⟨i, hi⟩) (FieldMutation.mutId v)).hash := by
      intro hEq
      rw [show (applyMutation (st.audit_entries.get ⟨i, hi⟩) (FieldMutation.mutId v)).hash
          = (st.audit_entries.get ⟨i, hi⟩).hash from rfl, hh] at hEq
      exact absurd (hinj hEq) (hashPreimage_ne_id hch)
    rw [verifyChainList_hash_mismatch hne]
    rfl
  | mutTimestamp v =>
    simp only [mutChanges] at hch
    simp only [mutWithinU64] at hwb
    have hne : entryCalcHash H
        (applyMutation (st.audit_entries.get ⟨i, hi⟩) (FieldMutation.mutTimestamp v))
        (tailHash none (st.audit_entries.take i))
        ≠ (applyMutation (st.audit_entries.get ⟨i, hi⟩) (FieldMutation.mutTimestamp v)).hash := by
      intro hEq
      rw [show (applyMutation (st.audit_entries.get ⟨i, hi⟩) (FieldMutation.mutTimestamp v)).hash
          = (st.audit_entries.get ⟨i, hi⟩).hash from rfl, hh] at hEq
      exact absurd (hinj hEq) (hashPreimage_ne_timestamp hwb hts hch)
    rw [verifyChainList_hash_mismatch hne]
    rfl
  | mutEventType v =>
    simp only [mutChanges] at hch
    have hne : entryCalcHash H
        (applyMutation (st.audit_entries.get ⟨i, hi⟩) (FieldMutation.mutEventType v))
        (tailHash none (st.audit_entries.take i))
        ≠ (applyMutation (st.audit_entries.get ⟨i, hi⟩) (FieldMutation.mutEventType v)).hash := by
      intro hEq
      rw [show (applyMutation (st.audit_entries.get ⟨i, hi⟩) (FieldMutation.mutEventType v)).hash
          = (st.audit_entries.get ⟨i, hi⟩).hash from rfl, hh] at hEq
      exact absurd (hinj hEq) (hashPreimage_ne_eventType hch)
    rw [verifyChainList_hash_mismatch hne]
    rfl
  | mutActor v =>
    simp only [mutChanges] at hch
    have hne : entryCalcHash H
        (applyMutation (st.audit_entries.get ⟨i, hi⟩) (FieldMutation.mutActor v))
        (tailHash none (st.audit_entries.take i))
        ≠ (applyMutation (st.audit_entries.get ⟨i, hi⟩) (FieldMutation.mutActor v)).hash := by
      intro hEq
      rw [show (applyMutation (st.audit_entries.get ⟨i, hi⟩) (FieldMutation.mutActor v)).hash
          = (st.audit_entries.get ⟨i, hi⟩).hash from rfl, hh] at hEq
      exact absurd (hinj hEq) (hashPreimage_ne_actor hch)
    rw [verifyChainList_hash_mismatch hne]
    rfl
  | mutResourceType v =>
    simp only [mutChanges] at hch
    have hne : entryCalcHash H
        (applyMutation (st.audit_entries.get ⟨i, hi⟩) (FieldMutation.mutResourceType v))
        (tailHash none (st.audit_entries.take i))
        ≠ (applyMutation (st.audit_entries.get ⟨i, hi⟩) (FieldMutation.mutResourceType v)).hash := by
      intro hEq
      rw [show (applyMutation (st.audit_entries.get ⟨i, hi⟩) (FieldMutation.mutResourceType v)).hash
          = (st.audit_entries.get ⟨i, hi⟩).hash from rfl, hh] at hEq
      exact absurd (hinj hEq) (hashPreimage_ne_resourceType hch)
    rw [verifyChainList_hash_mismatch hne]
    rfl
  | mutResourceId v =>
    simp only [mutChanges] at hch
    have hne : entryCalcHash H
        (applyMutation (st.audit_entries.get ⟨i, hi⟩) (FieldMutation.mutResourceId v))
        (tailHash none (st.audit_entries.take i))
        ≠ (applyMutation (st.audit_entries.get ⟨i, hi⟩) (FieldMutation.mutResourceId v)).hash := by
      intro hEq
      rw [show (applyMutation (st.audit_entries.get ⟨i, hi⟩) (FieldMutation.mutResourceId v)).hash
          = (st.audit_entries.get ⟨i, hi⟩).hash from rfl, hh] at hEq
      exact absurd (hinj hEq) (hashPreimage_ne_resourceId hch)
    rw [verifyChainList_hash_mismatch hne]
    rfl
  | mutAction v =>
    simp only [mutChanges] at hch
    have hne : entryCalcHash H
        (applyMutation (st.audit_entries.get ⟨i, hi⟩) (FieldMutation.mutAction v))
        (tailHash none (st.audit_entries.take i))
        ≠ (applyMutation (st.audit_entries.get ⟨i, hi⟩) (FieldMutation.mutAction v)).hash := by
      intro hEq
      rw [show (applyMutation (st.audit_entries.get ⟨i, hi⟩) (FieldMutation.mutAction v)).hash
          = (st.audit_entries.get ⟨i, hi⟩).hash from rfl, hh] at hEq
      exact absurd (hinj hEq) (hashPreimage_ne_action hch)
    rw [verifyChainList_hash_mismatch hne]
    rfl
  | mutDetails v =>
    simp only [mutChanges] at hch
    have hne : entryCalcHash H
        (applyMutation (st.audit_entries.get ⟨i, hi⟩) (FieldMutation.mutDetails v))
        (tailHash none (st.audit_entries.take i))
        ≠ (applyMutation (st.audit_entries.get ⟨i, hi⟩) (FieldMutation.mutDetails v)).hash := by
      intro hEq
      rw [show (applyMutation (st.audit_entries.get ⟨i, hi⟩) (FieldMutation.mutDetails v)).hash
          = (st.audit_entries.get ⟨i, hi⟩).hash from rfl, hh] at hEq
      exact absurd (hinj hEq) (hashPreimage_ne_details hch)
    rw [verifyChainList_hash_mismatch hne]
    rfl
  | mutHash v =>
    simp only [mutChanges] at hch
    have hne : entryCalcHash H
        (applyMutation (st.audit_entries.get ⟨i, hi⟩) (FieldMutation.mutHash v))
        (tailHash none (st.audit_entries.take i))
        ≠ (applyMutation (st.audit_entries.get ⟨i, hi⟩) (FieldMutation.mutHash v)).hash := by
      show entryCalcHash H (st.audit_entries.get ⟨i, hi⟩)
        (tailHash none (st.audit_entries.take i)) ≠ v
      rw [← hh]
      exact Ne.symm hch
    rw [verifyChainList_hash_mismatch hne]
    rfl
  | mutPreviousHash v =>
    simp only [mutChanges] at hch
    have hcalc : entryCalcHash H
        (applyMutation (st.audit_entries.get ⟨i, hi⟩) (FieldMutation.mutPreviousHash v))
        (tailHash none (st.audit_entries.take i))
        = (applyMutation (st.audit_entries.get ⟨i, hi⟩) (FieldMutation.mutPreviousHash v)).hash := by
      show entryCalcHash H (st.audit_entries.get ⟨i, hi⟩)
        (tailHash none (st.audit_entries.take i)) = (st.audit_entries.get ⟨i, hi⟩).hash
      exact hh.symm
    have hnePrev : (applyMutation (st.audit_entries.get ⟨i, hi⟩)
        (FieldMutation.mutPreviousHash v)).previous_hash
        ≠ tailHash none (st.audit_entries.take i) := by
      show v ≠ tailHash none (st.audit_entries.take i)
      rw [← hp]
      exact hch
    rw [verifyChainList_chain_break hcalc hnePrev]
    rfl

/-! ## Claim C1 -/

set_option maxRecDepth 400000 in
/-- Counterexample to claim C1 as stated: mutating the `metadata` field of a
stored entry (a genuine change of the stored state) leaves
`verify_audit_chain` succeeding, because `calculate_entry_hash` never hashes
`metadata` (nor `compliance_relevant` / `retention_until`); so "mutating any
single field … causes verify_audit_chain to fail" is false. -/
theorem claim1_cex :
    (tamperAt twoEntryState 1 (FieldMutation.mutMetadata
        { AuditMetadata.default with ip_address := some "10.0.0.1" })
      ≠ twoEntryState) ∧
    ((verify_audit_chain idDigest
        (tamperAt twoEntryState 1 (FieldMutation.mutMetadata
          { AuditMetadata.default with ip_address := some "10.0.0.1" }))
        auditorP "acc" 300).1
      = Except.ok "Audit chain verification successful") :=
  ⟨by decide, by decide⟩

/-- Claim C1 (amended): over any append sequence with strictly increasing
creation times and fresh ids, and any collision-free digest,
`verify_audit_chain` succeeds on the unaltered ledger; and mutating any
single HASH-COVERED field of any stored entry (id, timestamp, event_type,
actor, resource_type, resource_id, action, details, hash, previous_hash —
for a timestamp mutation, one that keeps the chronological order) makes
`verify_audit_chain` fail with a message naming that entry.  The fields not
covered by the hash — metadata, compliance_relevant, retention_until — are
NOT protected (see the counterexample). -/
theorem claim1_chain_integrity (H : List Nat → List Nat)
    (hinj : Function.Injective H) (settings : AuditSettings)
    (auditors : List (Principal × String)) (rs : List AppendReq)
    (caller : Principal) (accessId : String) (nowv : Nat)
    (hids : (rs.map AppendReq.entry_id ++ [accessId]).Nodup)
    (hts : (rs.map AppendReq.now ++ [nowv]).Pairwise (· < ·))
    (hbound : ∀ r ∈ rs, r.now < u64Mod)
    (hauth : is_authorized_auditor (emptyLedger settings auditors) caller = true) :
    ((verify_audit_chain H (appendAll H (emptyLedger settings auditors) rs)
        caller accessId nowv).1
      = Except.ok "Audit chain verification successful") ∧
    (∀ (i : Nat) (m : FieldMutation)
        (hi : i < (appendAll H (emptyLedger settings auditors) rs).audit_entries.length),
      hashCoveredMutation m = true →
      mutChanges ((appendAll H (emptyLedger settings auditors) rs).audit_entries.get ⟨i, hi⟩) m →
      mutWithinU64 m →
      accessId ∉ (modifyIdx (fun e => applyMutation e m) i
          (appendAll H (emptyLedger settings auditors) rs).audit_entries).map AuditEntry.id →
      ((modifyIdx (fun e => applyMutation e m) i
          (appendAll H (emptyLedger settings auditors) rs).audit_entries).map AuditEntry.timestamp
        ++ [nowv]).Pairwise (· < ·) →
      (verify_audit_chain H
          (tamperAt (appendAll H (emptyLedger settings auditors) rs) i m)
          caller accessId nowv).1
        = Except.error (mutationErrorMsg
            (applyMutation
              ((appendAll H (emptyLedger settings auditors) rs).audit_entries.get ⟨i, hi⟩) m)
            m)) := by
  have h0 : ledgerInvariant H (emptyLedger settings auditors) := ⟨trivial, rfl⟩
  have hnodup0 : ((emptyLedger settings auditors).audit_entries.map AuditEntry.id
      ++ rs.map AppendReq.entry_id).Nodup := by
    rcases List.nodup_append.mp hids with ⟨h1, -, -⟩
    simpa [emptyLedger] using h1
  obtain ⟨hinv, hidseq, htseq, haud, -⟩ :=
    appendAll_spec H rs (emptyLedger settings auditors) h0 hnodup0
  have hidseq2 : (appendAll H (emptyLedger settings auditors) rs).audit_entries.map AuditEntry.id
      = rs.map AppendReq.entry_id := by
    simpa [emptyLedger] using hidseq
  have htseq2 : (appendAll H (emptyLedger settings auditors) rs).audit_entries.map AuditEntry.timestamp
      = rs.map AppendReq.now := by
    simpa [emptyLedger] using htseq
  have hauth2 : is_authorized_auditor (appendAll H (emptyLedger settings auditors) rs) caller
      = true := by
    rw [is_authorized_auditor_congr haud]
    exact hauth
  have hfresh : accessId ∉ (appendAll H (emptyLedger settings auditors) rs).audit_entries.map
      AuditEntry.id := by
    rw [hidseq2]
    rcases List.nodup_append.mp hids with ⟨-, -, hdisj⟩
    intro hc
    exact hdisj hc (by simp)
  constructor
  · apply verify_ok_of_invariant hinv hauth2 hfresh
    rw [htseq2]
    exact hts
  · intro i m hi hcov hch hwb hacc horder
    have htsb : ((appendAll H (emptyLedger settings auditors) rs).audit_entries.get ⟨i, hi⟩).timestamp
        < u64Mod := by
      have hmem : (appendAll H (emptyLedger settings auditors) rs).audit_entries.get ⟨i, hi⟩
          ∈ (appendAll H (emptyLedger settings auditors) rs).audit_entries :=
        List.get_mem _ _ _
      have hmem2 := List.mem_map_of_mem AuditEntry.timestamp hmem
      rw [htseq2] at hmem2
      rcases List.mem_map.mp hmem2 with ⟨r, hr, hrts⟩
      rw [← hrts]
      exact hbound r hr
    exact verify_tamper_of_invariant hinj hinv hauth2 hi hcov hch hwb htsb hacc horder

set_option maxRecDepth 400000 in
/-- Witness for the amended C1: the two-entry ledger with the identity
digest; the honest chain verifies, and mutating entry 0's `details` to a
different string is reported as a hash mismatch naming that entry. -/
theorem claim1_chain_integrity_witness :
    ((verify_audit_chain idDigest
        (appendAll idDigest (emptyLedger defaultSettings [(auditorP, "Admin")]) twoReqs)
        auditorP "acc" 300).1
      = Except.ok "Audit chain verification successful") ∧
    ((verify_audit_chain idDigest
        (tamperAt (appendAll idDigest (emptyLedger defaultSettings [(auditorP, "Admin")]) twoReqs)
          0 (FieldMutation.mutDetails "forged"))
        auditorP "acc" 300).1
      = Except.error ("Hash mismatch in entry: "
          ++ (applyMutation
              ((appendAll idDigest (emptyLedger defaultSettings [(auditorP, "Admin")])
                  twoReqs).audit_entries.get ⟨0, by decide⟩)
              (FieldMutation.mutDetails "forged")).id)) := by
  have h := claim1_chain_integrity idDigest (fun a b hab => hab) defaultSettings
    [(auditorP, "Admin")] twoReqs auditorP "acc" 300
    (by decide) (by decide) (by decide) (by decide)
  exact ⟨h.1, h.2 0 (FieldMutation.mutDetails "forged") (by decide) rfl
    (by simp only [mutChanges]; decide) trivial (by decide) (by decide)⟩

end AuditTrail
